import Mathlib

/-!
# EBus internals (AzCore/EBus/BusImpl.h)

A shallow embedding of the queue, binding and enumeration members that
`BusImpl.h` defines for an EBus, followed by theorems about them.

The bus is a static object per bus type. Its state is the optional context
(`Bus::GetContext()` returns a pointer that every caller tests for null); every
member function is a function from the state before the call to the state after
it, together with whatever the call returns.
-/

namespace AZ

namespace BusInternal

/-! ## Configuration -/

/-- The compile-time constants of `EBusImplTraits` (BusImpl.h, lines 178-185). -/
structure EBusImplTraits where
  EnableEventQueue : Bool
  EventQueueingActiveByDefault : Bool
  EnableQueuedReferences : Bool
  HasId : Bool
  deriving DecidableEq, Repr

/-! ## Queued messages -/

/-- The callable that `QueueFunction` receives as `func`: either a callable of the
caller, or one of the bus's own dispatch functions, which `QueueEvent`,
`QueueEventReverse`, `QueueBroadcast` and `QueueBroadcastReverse` pass as
`&Bus::Event`, `&Bus::EventReverse`, `&Bus::Broadcast`, `&Bus::BroadcastReverse`. -/
inductive Function (Fn : Type) where
  | user (f : Fn)
  | Event
  | EventReverse
  | Broadcast
  | BroadcastReverse
  deriving DecidableEq, Repr

/-- One argument bound into a queued call: an address id, a cached address pointer
(`BusPtr`, null or bound to an address), an event function, or a plain value. -/
inductive Arg (Id Fn Val : Type) where
  | id (i : Id)
  | ptr (p : Option Id)
  | func (f : Fn)
  | val (v : Val)
  deriving DecidableEq, Repr

/-- The closure `[func, args...]() { invoke(func, args...); }` that `QueueFunction`
pushes (BusImpl.h, lines 717-722): the callable and the argument values copied at
queue time. -/
structure BusMessageCall (Id Fn Val : Type) where
  func : Function Fn
  args : List (Arg Id Fn Val)
  deriving DecidableEq, Repr

/-- Modelled from the spec: the queue object `context.m_queue` (its class is declared
in Policies.h, outside this excerpt). It holds the FIFO list of queued calls, oldest
first, and the flag saying whether new deferred calls are accepted. -/
structure EBusQueuePolicy (M : Type) where
  m_isActive : Bool
  m_messages : List M
  deriving DecidableEq, Repr

namespace EBusQueuePolicy

variable {M : Type}

/-- Modelled from the spec: `IsActive() -> bool`, whether new deferred calls are
accepted. -/
def IsActive (q : EBusQueuePolicy M) : Bool := q.m_isActive

/-- Modelled from the spec: `SetActive(enabled)` toggles whether new deferred calls
are accepted; it does not affect calls already queued. -/
def SetActive (q : EBusQueuePolicy M) (isActive : Bool) : EBusQueuePolicy M :=
  { q with m_isActive := isActive }

/-- Modelled from the spec: `Clear()` discards all currently queued callables without
invoking them. -/
def Clear (q : EBusQueuePolicy M) : EBusQueuePolicy M :=
  { q with m_messages := [] }

/-- Modelled from the spec: `Count() -> size`, the number of calls currently queued. -/
def Count (q : EBusQueuePolicy M) : Nat := q.m_messages.length

/-- The `m_messages.push(...)` of `QueueFunction`: a new entry goes to the back. -/
def push (q : EBusQueuePolicy M) (m : M) : EBusQueuePolicy M :=
  { q with m_messages := q.m_messages ++ [m] }

end EBusQueuePolicy

/-! ## Handlers, addresses and the context -/

/-- Handler multiplicity of an address (spec 4.1). -/
inductive EBusHandlerPolicy where
  | Single
  | Multiple
  | MultipleAndOrdered
  deriving DecidableEq, Repr

/-- Modelled from the spec: one handler's registration, a reference to the handler
object and its order key. -/
structure HandlerNode (H : Type) where
  m_handler : H
  m_order : Int
  deriving DecidableEq, Repr

/-- Modelled from the spec: the context of a bus type (declared in EBus.h, outside
this excerpt): the address directory `m_buses`, a list of addresses each with its
handlers in visiting order, and the queue `m_queue`. -/
structure Context (Id H M : Type) where
  m_buses : List (Id × List (HandlerNode H))
  m_queue : EBusQueuePolicy M
  deriving DecidableEq, Repr

/-- The state of a bus type: `none` while no context exists (Uninitialized), `some`
once it has been created (ContextActive). -/
abbrev BusState (Id H M : Type) := Option (Context Id H M)

section Bus

variable {Id H Fn Val : Type}

/-- Modelled from the spec: the context that first use creates: an empty directory and
an empty queue whose activity flag is the configuration flag
`EventQueueingActiveByDefault`. -/
def newContext (T : EBusImplTraits) : Context Id H (BusMessageCall Id Fn Val) :=
  { m_buses := [], m_queue := { m_isActive := T.EventQueueingActiveByDefault, m_messages := [] } }

/-- Modelled from the spec: `GetOrCreateContext() -> Context&` returns the context of
the bus type, creating it on first call. `QueueFunction` passes an argument
(`GetOrCreateContext(false)`), the other call sites pass none (written `true` here);
the spec gives the function no parameter, so the result does not depend on it. -/
def GetOrCreateContext (T : EBusImplTraits) (_arg : Bool)
    (s : BusState Id H (BusMessageCall Id Fn Val)) : Context Id H (BusMessageCall Id Fn Val) :=
  match s with
  | some context => context
  | none => newContext T

/-- Modelled from the spec: `GetContext(createIfMissing) -> Context*`, the
non-creating variant: it returns null if the context is absent and `createIfMissing`
is false. Returns the state after the call and the pointer. -/
def GetContext (T : EBusImplTraits) (createIfMissing : Bool)
    (s : BusState Id H (BusMessageCall Id Fn Val)) :
    BusState Id H (BusMessageCall Id Fn Val) × Option (Context Id H (BusMessageCall Id Fn Val)) :=
  match s with
  | some context => (some context, some context)
  | none => if createIfMissing then (some (newContext T), some (newContext T)) else (none, none)

/-- The call `Bus::GetContext()` without an argument, as `ExecuteQueuedEvents` and
`IsFunctionQueuing` make it. Both test the returned pointer for null, so the call is
the non-creating one. -/
def GetContextNoArg (T : EBusImplTraits) (s : BusState Id H (BusMessageCall Id Fn Val)) :
    BusState Id H (BusMessageCall Id Fn Val) × Option (Context Id H (BusMessageCall Id Fn Val)) :=
  GetContext T false s

/-- The queued messages of a bus, oldest first; a bus without a context has none. -/
def queuedMessages (s : BusState Id H (BusMessageCall Id Fn Val)) :
    List (BusMessageCall Id Fn Val) :=
  match s with
  | some context => context.m_queue.m_messages
  | none => []

/-- The life-cycle states of a bus before teardown (spec 4.6). -/
inductive LifeCycle where
  | Uninitialized
  | ContextActive
  deriving DecidableEq, Repr

/-- The life-cycle state of a bus: ContextActive once the context exists. -/
def lifeCycle (s : BusState Id H (BusMessageCall Id Fn Val)) : LifeCycle :=
  match s with
  | some _ => LifeCycle.ContextActive
  | none => LifeCycle.Uninitialized

/-! ## EBusBroadcastQueue -/

/-- `EBusBroadcastQueue::QueueFunction` (BusImpl.h, lines 706-724). -/
def QueueFunction (T : EBusImplTraits) (func : Function Fn) (args : List (Arg Id Fn Val))
    (s : BusState Id H (BusMessageCall Id Fn Val)) : BusState Id H (BusMessageCall Id Fn Val) :=
  let context := GetOrCreateContext T false s
  if context.m_queue.IsActive then
    some { context with m_queue := context.m_queue.push ⟨func, args⟩ }
  else
    some context

/-- `EBusBroadcastQueue::QueueBroadcast` (lines 686-693). The argument validation
that precedes the `QueueFunction` call in this and the other event forms is a
build-time check without effect at run time. -/
def QueueBroadcast (T : EBusImplTraits) (func : Fn) (args : List Val)
    (s : BusState Id H (BusMessageCall Id Fn Val)) : BusState Id H (BusMessageCall Id Fn Val) :=
  QueueFunction T Function.Broadcast (Arg.func func :: args.map Arg.val) s

/-- `EBusBroadcastQueue::QueueBroadcastReverse` (lines 695-702). -/
def QueueBroadcastReverse (T : EBusImplTraits) (func : Fn) (args : List Val)
    (s : BusState Id H (BusMessageCall Id Fn Val)) : BusState Id H (BusMessageCall Id Fn Val) :=
  QueueFunction T Function.BroadcastReverse (Arg.func func :: args.map Arg.val) s

/-- `EBusEventQueue::QueueEvent(const BusIdType&, ...)` (lines 638-645). -/
def QueueEvent (T : EBusImplTraits) (id : Id) (func : Fn) (args : List Val)
    (s : BusState Id H (BusMessageCall Id Fn Val)) : BusState Id H (BusMessageCall Id Fn Val) :=
  QueueFunction T Function.Event (Arg.id id :: Arg.func func :: args.map Arg.val) s

/-- `EBusEventQueue::QueueEvent(const BusPtr&, ...)` (lines 647-654). -/
def QueueEventPtr (T : EBusImplTraits) (ptr : Option Id) (func : Fn) (args : List Val)
    (s : BusState Id H (BusMessageCall Id Fn Val)) : BusState Id H (BusMessageCall Id Fn Val) :=
  QueueFunction T Function.Event (Arg.ptr ptr :: Arg.func func :: args.map Arg.val) s

/-- `EBusEventQueue::QueueEventReverse(const BusIdType&, ...)` (lines 656-663). -/
def QueueEventReverse (T : EBusImplTraits) (id : Id) (func : Fn) (args : List Val)
    (s : BusState Id H (BusMessageCall Id Fn Val)) : BusState Id H (BusMessageCall Id Fn Val) :=
  QueueFunction T Function.EventReverse (Arg.id id :: Arg.func func :: args.map Arg.val) s

/-- `EBusEventQueue::QueueEventReverse(const BusPtr&, ...)` (lines 665-672). -/
def QueueEventReversePtr (T : EBusImplTraits) (ptr : Option Id) (func : Fn) (args : List Val)
    (s : BusState Id H (BusMessageCall Id Fn Val)) : BusState Id H (BusMessageCall Id Fn Val) :=
  QueueFunction T Function.EventReverse (Arg.ptr ptr :: Arg.func func :: args.map Arg.val) s

/-- `EBusBroadcastQueue::AllowFunctionQueuing` (line 365). -/
def AllowFunctionQueuing (T : EBusImplTraits) (isAllowed : Bool)
    (s : BusState Id H (BusMessageCall Id Fn Val)) : BusState Id H (BusMessageCall Id Fn Val) :=
  let context := GetOrCreateContext T true s
  some { context with m_queue := context.m_queue.SetActive isAllowed }

/-- `EBusBroadcastQueue::IsFunctionQueuing` (lines 372-376): the state after the call
and the returned flag. -/
def IsFunctionQueuing (T : EBusImplTraits) (s : BusState Id H (BusMessageCall Id Fn Val)) :
    BusState Id H (BusMessageCall Id Fn Val) × Bool :=
  match GetContextNoArg T s with
  | (s', some context) => (s', context.m_queue.IsActive)
  | (s', none) => (s', T.EventQueueingActiveByDefault)

/-- `EBusBroadcastQueue::ClearQueuedEvents` (lines 340-346). -/
def ClearQueuedEvents (T : EBusImplTraits) (s : BusState Id H (BusMessageCall Id Fn Val)) :
    BusState Id H (BusMessageCall Id Fn Val) :=
  match GetContext T false s with
  | (_, some context) => some { context with m_queue := context.m_queue.Clear }
  | (s', none) => s'

/-- `EBusBroadcastQueue::QueuedEventCount` (lines 348-355): the state after the call
and the returned count. -/
def QueuedEventCount (T : EBusImplTraits) (s : BusState Id H (BusMessageCall Id Fn Val)) :
    BusState Id H (BusMessageCall Id Fn Val) × Nat :=
  match GetContext T false s with
  | (s', some context) => (s', context.m_queue.Count)
  | (s', none) => (s', 0)

/-! ## Address directory -/

/-- The handlers of address `id` in a directory, `none` when the directory has no such
address. -/
def findAddress [DecidableEq Id] (buses : List (Id × List (HandlerNode H))) (id : Id) :
    Option (List (HandlerNode H)) :=
  match buses with
  | [] => none
  | (k, hs) :: rest => if k = id then some hs else findAddress rest id

/-- The handlers connected at address `id`, in visiting order. An address that does
not exist has no handlers. -/
def handlersAt [DecidableEq Id] (buses : List (Id × List (HandlerNode H))) (id : Id) :
    List (HandlerNode H) :=
  (findAddress buses id).getD []

/-- Replaces the handlers of address `id`, adding the address when it is missing. -/
def setAddress [DecidableEq Id] (buses : List (Id × List (HandlerNode H))) (id : Id)
    (hs : List (HandlerNode H)) : List (Id × List (HandlerNode H)) :=
  match buses with
  | [] => [(id, hs)]
  | (k, old) :: rest => if k = id then (k, hs) :: rest else (k, old) :: setAddress rest id hs

/-- Modelled from the spec: `m_buses.Bind(ptr, id)` resolves or lazily creates the
address for `id` (an empty address when no handler has connected). -/
def bindAddress [DecidableEq Id] (buses : List (Id × List (HandlerNode H))) (id : Id) :
    List (Id × List (HandlerNode H)) :=
  match findAddress buses id with
  | some _ => buses
  | none => buses ++ [(id, [])]

/-- `EBusEventer::Bind` (BusImpl.h, lines 549-555): the state after the call and the
pointer written to `ptr`. -/
def Bind [DecidableEq Id] (T : EBusImplTraits) (id : Id)
    (s : BusState Id H (BusMessageCall Id Fn Val)) :
    BusState Id H (BusMessageCall Id Fn Val) × Option Id :=
  let context := GetOrCreateContext T true s
  (some { context with m_buses := bindAddress context.m_buses id }, some id)

/-- Whether handler `h` is resident in some address of the directory. -/
def isConnected [DecidableEq H] (buses : List (Id × List (HandlerNode H))) (h : H) : Bool :=
  buses.any (fun a => a.2.any (fun n => decide (n.m_handler = h)))

/-- Whether handler `h` is connected to the bus; no handler is without a context. -/
def isConnectedOnBus [DecidableEq H] (s : BusState Id H (BusMessageCall Id Fn Val)) (h : H) :
    Bool :=
  match s with
  | some context => isConnected context.m_buses h
  | none => false

/-- Stable insertion by the order comparator: the new node goes before the first
resident node that it precedes, hence after every node of equal order. -/
def insertOrdered (less : HandlerNode H → HandlerNode H → Bool) (n : HandlerNode H) :
    List (HandlerNode H) → List (HandlerNode H)
  | [] => [n]
  | e :: rest => if less n e then n :: e :: rest else e :: insertOrdered less n rest

/-- Modelled from the spec: where a new handler goes in an address's collection: the
sole entry under `Single` (a second connect is rejected), at the back under
`Multiple`, by order key with ties in insertion order under `MultipleAndOrdered`. -/
def insertHandler (P : EBusHandlerPolicy) (less : HandlerNode H → HandlerNode H → Bool)
    (n : HandlerNode H) (hs : List (HandlerNode H)) : List (HandlerNode H) :=
  match P with
  | EBusHandlerPolicy.Single => if hs.isEmpty then [n] else hs
  | EBusHandlerPolicy.Multiple => hs ++ [n]
  | EBusHandlerPolicy.MultipleAndOrdered => insertOrdered less n hs

/-- Modelled from the spec: `Connect(handlerRef, addressKey, orderKey)` creates the
context on first use and inserts the handler into the address's collection. A handler
belongs to at most one address at a time, so connecting a resident handler changes
nothing. -/
def Connect [DecidableEq Id] [DecidableEq H] (T : EBusImplTraits) (P : EBusHandlerPolicy)
    (less : HandlerNode H → HandlerNode H → Bool) (h : H) (id : Id) (order : Int)
    (s : BusState Id H (BusMessageCall Id Fn Val)) : BusState Id H (BusMessageCall Id Fn Val) :=
  let context := GetOrCreateContext T true s
  if isConnected context.m_buses h then
    some context
  else
    some { context with
      m_buses := setAddress context.m_buses id
        (insertHandler P less ⟨h, order⟩ (handlersAt context.m_buses id)) }

/-- Modelled from the spec: `Disconnect(handlerRef)` removes the handler from whatever
address holds it; a no-op if it is not connected. The emptied address is retained. -/
def Disconnect [DecidableEq H] (h : H) (s : BusState Id H (BusMessageCall Id Fn Val)) :
    BusState Id H (BusMessageCall Id Fn Val) :=
  match s with
  | none => none
  | some context =>
    some { context with
      m_buses := context.m_buses.map
        (fun a => (a.1, a.2.filter (fun n => !decide (n.m_handler = h)))) }

/-! ## Enumeration -/

/-- What an enumeration call leaves behind: the bus state, the variables captured by
the callback, and the handlers the callback was called on, in order. -/
structure Enumeration (Id H M σ : Type) where
  state : BusState Id H M
  captured : σ
  visited : List H

/-- Modelled from the spec: the enumeration loop: visits each handler in order; the
callback returns a continue/stop signal. -/
def enumerate {σ : Type} (callback : σ → H → σ × Bool) : List (HandlerNode H) → σ → σ × List H
  | [], acc => (acc, [])
  | n :: rest, acc =>
    let r := callback acc n.m_handler
    if r.2 then
      let e := enumerate callback rest r.1
      (e.1, n.m_handler :: e.2)
    else
      (r.1, [n.m_handler])

/-- The handlers the bus holds at address `id`; none without a context. -/
def handlersOfId [DecidableEq Id] (s : BusState Id H (BusMessageCall Id Fn Val)) (id : Id) :
    List (HandlerNode H) :=
  match s with
  | some context => handlersAt context.m_buses id
  | none => []

/-- The handlers the bus holds at a cached address; a null pointer has none. -/
def handlersOfPtr [DecidableEq Id] (s : BusState Id H (BusMessageCall Id Fn Val))
    (ptr : Option Id) : List (HandlerNode H) :=
  match ptr with
  | some id => handlersOfId s id
  | none => []

/-- All handlers of the bus, address by address; none without a context. -/
def handlersOfBus (s : BusState Id H (BusMessageCall Id Fn Val)) : List (HandlerNode H) :=
  match s with
  | some context => context.m_buses.flatMap (fun a => a.2)
  | none => []

/-- Modelled from the spec: `EnumerateHandlersId(addressKey, callback)` visits each
live handler of the address; without a context it behaves as "zero handlers" and
creates none. -/
def EnumerateHandlersId [DecidableEq Id] {σ : Type}
    (s : BusState Id H (BusMessageCall Id Fn Val)) (id : Id)
    (callback : σ → H → σ × Bool) (init : σ) : Enumeration Id H (BusMessageCall Id Fn Val) σ :=
  let e := enumerate callback (handlersOfId s id) init
  { state := s, captured := e.1, visited := e.2 }

/-- Modelled from the spec: `EnumerateHandlersPtr(ptr, callback)`, the same over a
cached address. -/
def EnumerateHandlersPtr [DecidableEq Id] {σ : Type}
    (s : BusState Id H (BusMessageCall Id Fn Val)) (ptr : Option Id)
    (callback : σ → H → σ × Bool) (init : σ) : Enumeration Id H (BusMessageCall Id Fn Val) σ :=
  let e := enumerate callback (handlersOfPtr s ptr) init
  { state := s, captured := e.1, visited := e.2 }

/-- Modelled from the spec: `EnumerateHandlers(callback)` visits each live handler of
the bus. -/
def EnumerateHandlers {σ : Type}
    (s : BusState Id H (BusMessageCall Id Fn Val))
    (callback : σ → H → σ × Bool) (init : σ) : Enumeration Id H (BusMessageCall Id Fn Val) σ :=
  let e := enumerate callback (handlersOfBus s) init
  { state := s, captured := e.1, visited := e.2 }

/-- The callback of `FindFirstHandler`: `result = handler; return false;`. -/
def findFirstCallback (_result : Option H) (handler : H) : Option H × Bool :=
  (some handler, false)

/-- `EBusEventEnumerator::FindFirstHandler(const BusIdType&)` (lines 557-567): the
state after the call and the returned pointer (`none` is null). -/
def FindFirstHandler [DecidableEq Id] (s : BusState Id H (BusMessageCall Id Fn Val)) (id : Id) :
    BusState Id H (BusMessageCall Id Fn Val) × Option H :=
  let result : Option H := none
  let e := EnumerateHandlersId s id findFirstCallback result
  (e.state, e.captured)

/-- `EBusEventEnumerator::FindFirstHandler(const BusPtr&)` (lines 569-579). -/
def FindFirstHandlerPtr [DecidableEq Id] (s : BusState Id H (BusMessageCall Id Fn Val))
    (ptr : Option Id) : BusState Id H (BusMessageCall Id Fn Val) × Option H :=
  let result : Option H := none
  let e := EnumerateHandlersPtr s ptr findFirstCallback result
  (e.state, e.captured)

/-- `EBusBroadcastEnumerator::FindFirstHandler()` (lines 674-684). -/
def FindFirstHandlerAll (s : BusState Id H (BusMessageCall Id Fn Val)) :
    BusState Id H (BusMessageCall Id Fn Val) × Option H :=
  let result : Option H := none
  let e := EnumerateHandlers s findFirstCallback result
  (e.state, e.captured)

/-- The callback of `GetNumOfEventHandlers`: `++size; return true;`. -/
def countCallback (size : Nat) (_handler : H) : Nat × Bool :=
  (size + 1, true)

/-- `EBusEventEnumerator::GetNumOfEventHandlers` (lines 581-591). -/
def GetNumOfEventHandlers [DecidableEq Id] (s : BusState Id H (BusMessageCall Id Fn Val))
    (id : Id) : BusState Id H (BusMessageCall Id Fn Val) × Nat :=
  let size : Nat := 0
  let e := EnumerateHandlersId s id countCallback size
  (e.state, e.captured)

/-! ## Executing the queue -/

/-- The loop of `Execute`: `front()` is invoked, then popped, until the local list is
empty. Returns the bus state after the last call and the calls made, in order. -/
def runMessages {M : Type} (invoke : M → BusState Id H M → BusState Id H M) :
    List M → BusState Id H M → BusState Id H M × List M
  | [], s => (s, [])
  | m :: rest, s =>
    let r := runMessages invoke rest (invoke m s)
    (r.1, m :: r.2)

/-- Modelled from the spec: `Execute()` runs every callable that was present in the
queue at the moment it begins, in FIFO order, on the calling thread. The queue
contents are taken out under the queue's lock (the snapshot step); the callables then
run outside the lock and may enqueue again. `invoke m s` is the bus state that
invoking the message `m` in state `s` leaves behind. -/
def EBusQueuePolicy.Execute {M : Type} (invoke : M → BusState Id H M → BusState Id H M)
    (context : Context Id H M) : BusState Id H M × List M :=
  let localMessages := context.m_queue.m_messages
  runMessages invoke localMessages
    (some { context with m_queue := { context.m_queue with m_messages := [] } })

/-- `EBusBroadcastQueue::ExecuteQueuedEvents` (lines 327-333): the state after the call
and the callables it ran, in order. -/
def ExecuteQueuedEvents (T : EBusImplTraits)
    (invoke : BusMessageCall Id Fn Val → BusState Id H (BusMessageCall Id Fn Val) →
      BusState Id H (BusMessageCall Id Fn Val))
    (s : BusState Id H (BusMessageCall Id Fn Val)) :
    BusState Id H (BusMessageCall Id Fn Val) × List (BusMessageCall Id Fn Val) :=
  match GetContextNoArg T s with
  | (_, some context) => EBusQueuePolicy.Execute invoke context
  | (s', none) => (s', [])

/-! ## The bus interface as operations -/

/-- A call on the bus that a queued callable (or a handler it reaches) may make while
it runs: the operations of BusImpl.h other than executing the queue, and connecting or
disconnecting a handler. -/
inductive CallOp (Id H Fn Val : Type) where
  | Bind (id : Id)
  | Connect (h : H) (id : Id) (order : Int)
  | Disconnect (h : H)
  | FindFirstHandler (id : Id)
  | FindFirstHandlerPtr (ptr : Option Id)
  | FindFirstHandlerAll
  | GetNumOfEventHandlers (id : Id)
  | QueueFunction (func : Function Fn) (args : List (Arg Id Fn Val))
  | QueueBroadcast (func : Fn) (args : List Val)
  | QueueBroadcastReverse (func : Fn) (args : List Val)
  | QueueEvent (id : Id) (func : Fn) (args : List Val)
  | QueueEventPtr (ptr : Option Id) (func : Fn) (args : List Val)
  | QueueEventReverse (id : Id) (func : Fn) (args : List Val)
  | QueueEventReversePtr (ptr : Option Id) (func : Fn) (args : List Val)
  | AllowFunctionQueuing (isAllowed : Bool)
  | IsFunctionQueuing
  | ClearQueuedEvents
  | QueuedEventCount
  deriving DecidableEq, Repr

/-- The handler configuration of a bus type: multiplicity and order comparator. -/
structure HandlerConfig (H : Type) where
  policy : EBusHandlerPolicy
  less : HandlerNode H → HandlerNode H → Bool

/-- The bus state after one call. -/
def CallOp.apply [DecidableEq Id] [DecidableEq H] (T : EBusImplTraits) (C : HandlerConfig H)
    (op : CallOp Id H Fn Val) (s : BusState Id H (BusMessageCall Id Fn Val)) :
    BusState Id H (BusMessageCall Id Fn Val) :=
  match op with
  | CallOp.Bind id => (BusInternal.Bind T id s).1
  | CallOp.Connect h id order => BusInternal.Connect T C.policy C.less h id order s
  | CallOp.Disconnect h => BusInternal.Disconnect h s
  | CallOp.FindFirstHandler id => (BusInternal.FindFirstHandler s id).1
  | CallOp.FindFirstHandlerPtr ptr => (BusInternal.FindFirstHandlerPtr s ptr).1
  | CallOp.FindFirstHandlerAll => (BusInternal.FindFirstHandlerAll s).1
  | CallOp.GetNumOfEventHandlers id => (BusInternal.GetNumOfEventHandlers s id).1
  | CallOp.QueueFunction func args => BusInternal.QueueFunction T func args s
  | CallOp.QueueBroadcast func args => BusInternal.QueueBroadcast T func args s
  | CallOp.QueueBroadcastReverse func args => BusInternal.QueueBroadcastReverse T func args s
  | CallOp.QueueEvent id func args => BusInternal.QueueEvent T id func args s
  | CallOp.QueueEventPtr ptr func args => BusInternal.QueueEventPtr T ptr func args s
  | CallOp.QueueEventReverse id func args => BusInternal.QueueEventReverse T id func args s
  | CallOp.QueueEventReversePtr ptr func args => BusInternal.QueueEventReversePtr T ptr func args s
  | CallOp.AllowFunctionQueuing isAllowed => BusInternal.AllowFunctionQueuing T isAllowed s
  | CallOp.IsFunctionQueuing => (BusInternal.IsFunctionQueuing T s).1
  | CallOp.ClearQueuedEvents => BusInternal.ClearQueuedEvents T s
  | CallOp.QueuedEventCount => (BusInternal.QueuedEventCount T s).1

/-- The bus state after a sequence of calls. -/
def applyCalls [DecidableEq Id] [DecidableEq H] (T : EBusImplTraits) (C : HandlerConfig H)
    (ops : List (CallOp Id H Fn Val)) (s : BusState Id H (BusMessageCall Id Fn Val)) :
    BusState Id H (BusMessageCall Id Fn Val) :=
  ops.foldl (fun st op => op.apply T C st) s

/-- Invoking a queued message whose run makes the bus calls `body m`, in order. -/
def invokeCalls [DecidableEq Id] [DecidableEq H] (T : EBusImplTraits) (C : HandlerConfig H)
    (body : BusMessageCall Id Fn Val → List (CallOp Id H Fn Val))
    (m : BusMessageCall Id Fn Val) (s : BusState Id H (BusMessageCall Id Fn Val)) :
    BusState Id H (BusMessageCall Id Fn Val) :=
  applyCalls T C (body m) s

/-- A call on the bus made from outside a queued callable: any `CallOp`, or
`ExecuteQueuedEvents`. -/
inductive BusOp (Id H Fn Val : Type) where
  | call (op : CallOp Id H Fn Val)
  | ExecuteQueuedEvents
  deriving DecidableEq, Repr

/-- The bus state after one call and the queued callables that the call ran. -/
def BusOp.apply [DecidableEq Id] [DecidableEq H] (T : EBusImplTraits) (C : HandlerConfig H)
    (body : BusMessageCall Id Fn Val → List (CallOp Id H Fn Val))
    (op : BusOp Id H Fn Val) (s : BusState Id H (BusMessageCall Id Fn Val)) :
    BusState Id H (BusMessageCall Id Fn Val) × List (BusMessageCall Id Fn Val) :=
  match op with
  | BusOp.call c => (c.apply T C s, [])
  | BusOp.ExecuteQueuedEvents => BusInternal.ExecuteQueuedEvents T (invokeCalls T C body) s

/-- The bus state after a sequence of calls from outside. -/
def applyOps [DecidableEq Id] [DecidableEq H] (T : EBusImplTraits) (C : HandlerConfig H)
    (body : BusMessageCall Id Fn Val → List (CallOp Id H Fn Val))
    (ops : List (BusOp Id H Fn Val)) (s : BusState Id H (BusMessageCall Id Fn Val)) :
    BusState Id H (BusMessageCall Id Fn Val) :=
  ops.foldl (fun st op => (op.apply T C body st).1) s

/-! ## Dispatch -/

/-- Whether handler `h` is connected at address `id`. -/
def isLiveAt [DecidableEq Id] [DecidableEq H] (s : BusState Id H (BusMessageCall Id Fn Val))
    (id : Id) (h : H) : Bool :=
  (handlersOfId s id).any (fun n => decide (n.m_handler = h))

/-- Modelled from the spec: the dispatch walk (spec 4.4). It goes through the
connections that were present when the pass began, in the given order, and invokes the
event call on each one that is still connected when its turn comes. A connection
removed before its turn is passed over; a handler connected during the pass is not
among the connections of the pass. `react h` is the list of bus calls that the event
call makes the handler `h` perform. Returns the state after the pass and the handlers
visited, in order. -/
def dispatchNodes [DecidableEq Id] [DecidableEq H] (T : EBusImplTraits) (C : HandlerConfig H)
    (react : H → List (CallOp Id H Fn Val)) :
    List (Id × HandlerNode H) → BusState Id H (BusMessageCall Id Fn Val) →
      BusState Id H (BusMessageCall Id Fn Val) × List H
  | [], s => (s, [])
  | a :: rest, s =>
    if isLiveAt s a.1 a.2.m_handler then
      let r := dispatchNodes T C react rest (applyCalls T C (react a.2.m_handler) s)
      (r.1, a.2.m_handler :: r.2)
    else
      dispatchNodes T C react rest s

/-- The connections of address `id`, front to back, each with its address. -/
def nodesOfId [DecidableEq Id] (context : Context Id H (BusMessageCall Id Fn Val)) (id : Id) :
    List (Id × HandlerNode H) :=
  (handlersAt context.m_buses id).map (fun n => (id, n))

/-- The connections of a cached address; a null pointer has none. -/
def nodesOfPtr [DecidableEq Id] (context : Context Id H (BusMessageCall Id Fn Val))
    (ptr : Option Id) : List (Id × HandlerNode H) :=
  match ptr with
  | some id => nodesOfId context id
  | none => []

/-- The connections of every address of the directory, address by address. -/
def nodesOfBus (context : Context Id H (BusMessageCall Id Fn Val)) :
    List (Id × HandlerNode H) :=
  context.m_buses.flatMap (fun a => a.2.map (fun n => (a.1, n)))

/-- Modelled from the spec: `Event(addressKey, methodCall, args...)`, dispatch to one
address in forward order. A dispatch call creates the context on first use.
`react func args h` is what the event `func(args...)` makes handler `h` do. -/
def Event [DecidableEq Id] [DecidableEq H] (T : EBusImplTraits) (C : HandlerConfig H)
    (react : Fn → List Val → H → List (CallOp Id H Fn Val))
    (id : Id) (func : Fn) (args : List Val) (s : BusState Id H (BusMessageCall Id Fn Val)) :
    BusState Id H (BusMessageCall Id Fn Val) × List H :=
  let context := GetOrCreateContext T true s
  dispatchNodes T C (react func args) (nodesOfId context id) (some context)

/-- Modelled from the spec: `Event` on a cached address. -/
def EventPtr [DecidableEq Id] [DecidableEq H] (T : EBusImplTraits) (C : HandlerConfig H)
    (react : Fn → List Val → H → List (CallOp Id H Fn Val))
    (ptr : Option Id) (func : Fn) (args : List Val)
    (s : BusState Id H (BusMessageCall Id Fn Val)) :
    BusState Id H (BusMessageCall Id Fn Val) × List H :=
  let context := GetOrCreateContext T true s
  dispatchNodes T C (react func args) (nodesOfPtr context ptr) (some context)

/-- Modelled from the spec: `EventReverse`, dispatch to one address back to front. -/
def EventReverse [DecidableEq Id] [DecidableEq H] (T : EBusImplTraits) (C : HandlerConfig H)
    (react : Fn → List Val → H → List (CallOp Id H Fn Val))
    (id : Id) (func : Fn) (args : List Val) (s : BusState Id H (BusMessageCall Id Fn Val)) :
    BusState Id H (BusMessageCall Id Fn Val) × List H :=
  let context := GetOrCreateContext T true s
  dispatchNodes T C (react func args) (nodesOfId context id).reverse (some context)

/-- Modelled from the spec: `EventReverse` on a cached address. -/
def EventReversePtr [DecidableEq Id] [DecidableEq H] (T : EBusImplTraits)
    (C : HandlerConfig H) (react : Fn → List Val → H → List (CallOp Id H Fn Val))
    (ptr : Option Id) (func : Fn) (args : List Val)
    (s : BusState Id H (BusMessageCall Id Fn Val)) :
    BusState Id H (BusMessageCall Id Fn Val) × List H :=
  let context := GetOrCreateContext T true s
  dispatchNodes T C (react func args) (nodesOfPtr context ptr).reverse (some context)

/-- Modelled from the spec: `Broadcast(methodCall, args...)`, dispatch over every
address of the directory in forward order. -/
def Broadcast [DecidableEq Id] [DecidableEq H] (T : EBusImplTraits) (C : HandlerConfig H)
    (react : Fn → List Val → H → List (CallOp Id H Fn Val))
    (func : Fn) (args : List Val) (s : BusState Id H (BusMessageCall Id Fn Val)) :
    BusState Id H (BusMessageCall Id Fn Val) × List H :=
  let context := GetOrCreateContext T true s
  dispatchNodes T C (react func args) (nodesOfBus context) (some context)

/-- Modelled from the spec: `BroadcastReverse`, the same back to front. -/
def BroadcastReverse [DecidableEq Id] [DecidableEq H] (T : EBusImplTraits)
    (C : HandlerConfig H) (react : Fn → List Val → H → List (CallOp Id H Fn Val))
    (func : Fn) (args : List Val) (s : BusState Id H (BusMessageCall Id Fn Val)) :
    BusState Id H (BusMessageCall Id Fn Val) × List H :=
  let context := GetOrCreateContext T true s
  dispatchNodes T C (react func args) (nodesOfBus context).reverse (some context)

/-- The plain values among bound arguments, in order. -/
def argValues : List (Arg Id Fn Val) → List Val
  | [] => []
  | Arg.val v :: rest => v :: argValues rest
  | _ :: rest => argValues rest

/-- Running a queued closure: `AZStd::invoke(func, args...)` (BusImpl.h, line 720).
A closure of one of the bus's dispatch functions calls that function on the bound
address, event function and values; a closure of a user callable makes the bus calls
`body m`. A closure whose arguments do not fit its function cannot be built and is
given no effect. -/
def invokeMessage [DecidableEq Id] [DecidableEq H] (T : EBusImplTraits) (C : HandlerConfig H)
    (react : Fn → List Val → H → List (CallOp Id H Fn Val))
    (body : BusMessageCall Id Fn Val → List (CallOp Id H Fn Val))
    (m : BusMessageCall Id Fn Val) (s : BusState Id H (BusMessageCall Id Fn Val)) :
    BusState Id H (BusMessageCall Id Fn Val) :=
  match m.func, m.args with
  | Function.user _, _ => applyCalls T C (body m) s
  | Function.Event, Arg.id id :: Arg.func f :: rest =>
    (Event T C react id f (argValues rest) s).1
  | Function.Event, Arg.ptr ptr :: Arg.func f :: rest =>
    (EventPtr T C react ptr f (argValues rest) s).1
  | Function.EventReverse, Arg.id id :: Arg.func f :: rest =>
    (EventReverse T C react id f (argValues rest) s).1
  | Function.EventReverse, Arg.ptr ptr :: Arg.func f :: rest =>
    (EventReversePtr T C react ptr f (argValues rest) s).1
  | Function.Broadcast, Arg.func f :: rest => (Broadcast T C react f (argValues rest) s).1
  | Function.BroadcastReverse, Arg.func f :: rest =>
    (BroadcastReverse T C react f (argValues rest) s).1
  | _, _ => s

/-- Connecting the handlers `conns`, each with its order key, to address `id`, one
after the other. -/
def connectAll [DecidableEq Id] [DecidableEq H] (T : EBusImplTraits) (P : EBusHandlerPolicy)
    (less : HandlerNode H → HandlerNode H → Bool) (id : Id) (conns : List (H × Int))
    (s : BusState Id H (BusMessageCall Id Fn Val)) : BusState Id H (BusMessageCall Id Fn Val) :=
  conns.foldl (fun st c => Connect T P less c.1 id c.2 st) s

end Bus

/-! ## Queued-argument validation (BusImpl.h, lines 593-636) -/

namespace Internal

/-- How a parameter type `T` of an event function is passed: by value, as an lvalue
reference `U&`, or as an rvalue reference `U&&`. -/
inductive RefKind where
  | value
  | lvalueRef
  | rvalueRef
  deriving DecidableEq, Repr

/-- A parameter type `T` as the validator sees it: `ref` decides
`is_lvalue_reference<T>`, `isConst` is `is_const<remove_reference_t<T>>`. -/
structure ParamType where
  ref : RefKind
  isConst : Bool
  deriving DecidableEq, Repr

/-- An event function type `Function`: whether it is a bind expression
(`is_bind_expression_v<Function>`) and its parameter types (`function_traits`). -/
structure FunctionType where
  is_bind_expression : Bool
  args : List ParamType
  deriving DecidableEq, Repr

/-- `ArgumentValidatorHelper::is_non_const_lvalue_reference<T>` (line 610). -/
def is_non_const_lvalue_reference (t : ParamType) : Bool :=
  decide (t.ref = RefKind.lvalueRef) && !t.isConst

/-- `ArgumentValidatorHelper<Function, IsBindExpression>::Validate()` (lines 601-625):
`true` when the instantiation compiles. The specialisation for bind expressions is
empty; the primary template holds the `static_assert` that no parameter is a non-const
lvalue reference. -/
def ArgumentValidatorHelper.Validate (F : FunctionType) : Bool :=
  if F.is_bind_expression then
    true
  else
    !(F.args.any is_non_const_lvalue_reference)

/-- `QueueFunctionArgumentValidator<Function, AllowQueuedReferences>::Validate()`
(lines 595-599 and 627-635): `true` when the instantiation compiles. The primary
template is empty; the specialisation for `false` runs the helper. -/
def QueueFunctionArgumentValidator.Validate (F : FunctionType) (AllowQueuedReferences : Bool) :
    Bool :=
  if AllowQueuedReferences then
    true
  else
    ArgumentValidatorHelper.Validate F

end Internal

/-- The build-time check that opens `QueueEvent`, `QueueEventReverse` (by id and by
pointer), `QueueBroadcast` and `QueueBroadcastReverse` (lines 642, 651, 660, 669, 690,
699): `true` when a call with an event function of type `F` compiles. -/
def queuedEventAccepted (T : EBusImplTraits) (F : Internal.FunctionType) : Bool :=
  Internal.QueueFunctionArgumentValidator.Validate F T.EnableQueuedReferences

/-! ## The queue base of EBusImpl (BusImpl.h, lines 303-308 and 521-547) -/

/-- The class that `EBusImpl` inherits its queue members from. -/
inductive QueueBase where
  | EBusEventQueue
  | EBusBroadcastQueue
  | EBusNullQueue
  deriving DecidableEq, Repr

/-- The queue operations declared in BusImpl.h. -/
inductive QueueMember where
  | ExecuteQueuedEvents
  | ClearQueuedEvents
  | QueuedEventCount
  | AllowFunctionQueuing
  | IsFunctionQueuing
  | QueueBroadcast
  | QueueBroadcastReverse
  | QueueFunction
  | QueueEvent
  | QueueEventReverse
  deriving DecidableEq, Repr

/-- The members of a queue base: `EBusNullQueue` is empty (lines 306-308),
`EBusBroadcastQueue` declares eight members (lines 320-412), `EBusEventQueue` inherits
them and adds `QueueEvent` and `QueueEventReverse` (lines 423-480). -/
def QueueBase.members : QueueBase → List QueueMember
  | QueueBase.EBusNullQueue => []
  | QueueBase.EBusBroadcastQueue =>
    [QueueMember.ExecuteQueuedEvents, QueueMember.ClearQueuedEvents,
      QueueMember.QueuedEventCount, QueueMember.AllowFunctionQueuing,
      QueueMember.IsFunctionQueuing, QueueMember.QueueBroadcast,
      QueueMember.QueueBroadcastReverse, QueueMember.QueueFunction]
  | QueueBase.EBusEventQueue =>
    [QueueMember.ExecuteQueuedEvents, QueueMember.ClearQueuedEvents,
      QueueMember.QueuedEventCount, QueueMember.AllowFunctionQueuing,
      QueueMember.IsFunctionQueuing, QueueMember.QueueBroadcast,
      QueueMember.QueueBroadcastReverse, QueueMember.QueueFunction,
      QueueMember.QueueEvent, QueueMember.QueueEventReverse]

/-- The queue base of `EBusImpl<Bus, Traits, BusIdType>`: the primary template (line
527) chooses between `EBusEventQueue` and `EBusNullQueue`, the specialisation for
`NullBusId` (line 545) between `EBusBroadcastQueue` and `EBusNullQueue`, both by
`Traits::EnableEventQueue`. -/
def EBusImpl.queueBase (T : EBusImplTraits) (busIdIsNullBusId : Bool) : QueueBase :=
  if busIdIsNullBusId then
    if T.EnableEventQueue then QueueBase.EBusBroadcastQueue else QueueBase.EBusNullQueue
  else
    if T.EnableEventQueue then QueueBase.EBusEventQueue else QueueBase.EBusNullQueue

/-- The build-time check of `QueueFunction` (BusImpl.h, lines 710-711): its only
`static_assert` requires the bus to have a queue ("This EBus doesn't support queued
events! Check 'EnableEventQueue'"). The type `F` of the callable is not inspected:
the body holds no call of `QueueFunctionArgumentValidator`. `true` when a call with a
callable of type `F` compiles. -/
def queueFunctionAccepted (T : EBusImplTraits) (_F : Internal.FunctionType) : Bool :=
  T.EnableEventQueue

/-! ## Lock selection (BusImpl.h, lines 148-159) -/

/-- A mutex type: the no-op `NullMutex` (lines 41-46) or some other lock type, told
apart by a number. -/
inductive MutexKind where
  | NullMutex
  | lock (n : Nat)
  deriving DecidableEq, Repr

/-- The two lock types that a bus configuration (`Traits`) names. -/
structure MutexTraits where
  MutexType : MutexKind
  EventQueueMutexType : MutexKind
  deriving DecidableEq, Repr

/-- `EBusImplTraits::MutexType` (line 148): `Traits::MutexType`. -/
def EBusImplTraits.MutexType (Traits : MutexTraits) : MutexKind :=
  Traits.MutexType

/-- `EBusImplTraits::EventQueueMutexType` (lines 158-159):
`if_c<is_same<Traits::EventQueueMutexType, NullMutex>::value, MutexType,
Traits::EventQueueMutexType>::type`. -/
def EBusImplTraits.EventQueueMutexType (Traits : MutexTraits) : MutexKind :=
  if Traits.EventQueueMutexType = MutexKind.NullMutex then
    EBusImplTraits.MutexType Traits
  else
    Traits.EventQueueMutexType

/-! ## Sample buses -/




/-- A message type with numbered callables, numbered addresses and integer values. -/
abbrev SampleMessage := BusMessageCall Nat Nat Int

/-- Bus states over numbered addresses and numbered handlers. -/
abbrev SampleState := BusState Nat Nat SampleMessage

/-- A keyed bus with an event queue that is active by default. -/
def sampleTraits : EBusImplTraits :=
  { EnableEventQueue := true, EventQueueingActiveByDefault := true,
    EnableQueuedReferences := false, HasId := true }

/-- A keyed bus with an event queue that is inactive by default. -/
def sampleTraitsInactive : EBusImplTraits :=
  { EnableEventQueue := true, EventQueueingActiveByDefault := false,
    EnableQueuedReferences := false, HasId := true }

/-- Unordered multiple handlers per address. -/
def sampleConfig : HandlerConfig Nat :=
  { policy := EBusHandlerPolicy.Multiple, less := fun a b => decide (a.m_order < b.m_order) }

/-- The queued call of the user callable number `n`, without arguments. -/
def sampleCall (n : Nat) : SampleMessage := { func := Function.user n, args := [] }

/-- Callable 1 enqueues callable 3 when it runs; the other callables make no bus call. -/
def sampleBody (m : SampleMessage) : List (CallOp Nat Nat Nat Int) :=
  if m = sampleCall 1 then [CallOp.QueueFunction (Function.user 3) []] else []

/-- Callable 1 enqueues callable 3, callable 2 clears the queue. -/
def sampleBodyClearing (m : SampleMessage) : List (CallOp Nat Nat Nat Int) :=
  if m = sampleCall 1 then [CallOp.QueueFunction (Function.user 3) []]
  else if m = sampleCall 2 then [CallOp.ClearQueuedEvents]
  else []

/-- A context with no address and the given queue. -/
def sampleContext (isActive : Bool) (messages : List SampleMessage) :
    Context Nat Nat SampleMessage :=
  { m_buses := [], m_queue := { m_isActive := isActive, m_messages := messages } }

/-- A bus with handlers 10 and 11 at address 5, handler 12 at address 6, and an empty
active queue. -/
def sampleBus : SampleState :=
  some { m_buses := [(5, [⟨10, 0⟩, ⟨11, 0⟩]), (6, [⟨12, 0⟩])],
         m_queue := { m_isActive := true, m_messages := [] } }

/-- Handlers that make no bus call when an event reaches them. -/
def sampleReactNone (_func : Nat) (_args : List Int) (_h : Nat) : List (CallOp Nat Nat Nat Int) :=
  []

/-- Handlers that, when an event reaches them, enqueue the user callable carrying
their own number. -/
def sampleReactQueue (_func : Nat) (_args : List Int) (h : Nat) :
    List (CallOp Nat Nat Nat Int) :=
  [CallOp.QueueFunction (Function.user h) []]

/-- A bus configured without an event queue. -/
def sampleTraitsNoQueue : EBusImplTraits :=
  { EnableEventQueue := false, EventQueueingActiveByDefault := false,
    EnableQueuedReferences := false, HasId := true }

/-- The type of an event `void(const InputChannel&, bool&)`: a const lvalue reference
and a non-const lvalue reference. -/
def sampleFunctionMutableRef : Internal.FunctionType :=
  { is_bind_expression := false,
    args := [⟨Internal.RefKind.lvalueRef, true⟩, ⟨Internal.RefKind.lvalueRef, false⟩] }

/-- Ordered multiple handlers per address, lesser order keys first. -/
def sampleOrderedConfig : HandlerConfig Nat :=
  { policy := EBusHandlerPolicy.MultipleAndOrdered,
    less := fun a b => decide (a.m_order < b.m_order) }

/-- The bus after connecting the handlers 30, 10 and 20 to address 5 with the order
keys 3, 1 and 2, in this sequence. -/
def sampleOrderedBus : SampleState :=
  connectAll sampleTraits EBusHandlerPolicy.MultipleAndOrdered sampleOrderedConfig.less 5
    [(30, 3), (10, 1), (20, 2)] none

/-- The bus after connecting the handlers 1 (A), 2 (B) and 3 (C), in this order, to
address 5 of a bus with unordered multiple handlers. -/
def sampleContextABC : Context Nat Nat SampleMessage :=
  { m_buses := [(5, [⟨1, 0⟩, ⟨2, 0⟩, ⟨3, 0⟩])],
    m_queue := { m_isActive := true, m_messages := [] } }

/-- Handler 1 disconnects handler 2 when an event reaches it; the other handlers make
no bus call. -/
def sampleReactDisconnect (_func : Nat) (_args : List Int) (h : Nat) :
    List (CallOp Nat Nat Nat Int) :=
  if h = 1 then [CallOp.Disconnect 2] else []

/-- Handler 1 connects handler 4 (D) to address 5 when an event reaches it; the other
handlers make no bus call. -/
def sampleReactConnect (_func : Nat) (_args : List Int) (h : Nat) :
    List (CallOp Nat Nat Nat Int) :=
  if h = 1 then [CallOp.Connect 4 5 0] else []

end BusInternal

end AZ

/-! # JSON integer serializer (AzCore/Serialization/Json/IntSerializer.cpp) -/

namespace rapidjson

/-- `rapidjson::Type`, the result of `Value::GetType()`. -/
inductive JsonType where
  | kNullType
  | kFalseType
  | kTrueType
  | kObjectType
  | kArrayType
  | kStringType
  | kNumberType
  deriving DecidableEq, Repr

/-- A double held by a JSON value, given by its 64-bit pattern. -/
structure JsonDouble where
  bits : Nat
  deriving DecidableEq, Repr

/-- A `rapidjson::Value` as far as the integer serializer looks at it. A number is
either an integer `n` with `-2^63 ≤ n < 2^64` (what `SetInt64`, `SetUint64` and the
parser produce) or a double. The contents of objects, arrays are not looked at. -/
inductive Value where
  | null
  | bool (b : Bool)
  | object
  | array
  | string (s : String)
  | integer (n : Int)
  | double (d : JsonDouble)
  deriving DecidableEq, Repr

/-- The integers a JSON number can hold: the union of the `int64_t` and the `uint64_t`
range. Every other value is well formed. -/
def Value.WellFormed : Value → Bool
  | Value.integer n => decide (-(2 : Int) ^ 63 ≤ n ∧ n < (2 : Int) ^ 64)
  | _ => true

/-- `Value::GetType()`. -/
def Value.GetType : Value → JsonType
  | Value.null => JsonType.kNullType
  | Value.bool false => JsonType.kFalseType
  | Value.bool true => JsonType.kTrueType
  | Value.object => JsonType.kObjectType
  | Value.array => JsonType.kArrayType
  | Value.string _ => JsonType.kStringType
  | Value.integer _ => JsonType.kNumberType
  | Value.double _ => JsonType.kNumberType

/-- `Value::IsInt64()`: the number is an integer in the `int64_t` range. -/
def Value.IsInt64 : Value → Bool
  | Value.integer n => decide (-(2 : Int) ^ 63 ≤ n ∧ n < (2 : Int) ^ 63)
  | _ => false

/-- `Value::IsUint64()`: the number is an integer in the `uint64_t` range. -/
def Value.IsUint64 : Value → Bool
  | Value.integer n => decide (0 ≤ n ∧ n < (2 : Int) ^ 64)
  | _ => false

/-- `Value::IsDouble()`: the number is held as a double. -/
def Value.IsDouble : Value → Bool
  | Value.double _ => true
  | _ => false

/-- `Value::IsNumber()`. -/
def Value.IsNumber : Value → Bool
  | Value.integer _ => true
  | Value.double _ => true
  | _ => false

/-- Conversion of an integer to `int64_t` (two's complement, 64 bits). -/
def wrapInt64 (n : Int) : Int :=
  (n + (2 : Int) ^ 63) % (2 : Int) ^ 64 - (2 : Int) ^ 63

/-- Conversion of an integer to `uint64_t`. -/
def wrapUint64 (n : Int) : Int :=
  n % (2 : Int) ^ 64

/-- `Value::SetInt64(int64_t)`: the value becomes the integer number given. -/
def Value.SetInt64 (i64 : Int) : Value :=
  Value.integer (wrapInt64 i64)

/-- `Value::SetUint64(uint64_t)`: the value becomes the integer number given. -/
def Value.SetUint64 (u64 : Int) : Value :=
  Value.integer (wrapUint64 u64)

/-- `Value::GetInt64()`; it requires `IsInt64()`. -/
def Value.GetInt64 : Value → Int
  | Value.integer n => n
  | _ => 0

/-- `Value::GetUint64()`; it requires `IsUint64()`. -/
def Value.GetUint64 : Value → Int
  | Value.integer n => n
  | _ => 0

/-- `Value::GetDouble()` on a value held as a double; it requires `IsNumber()`. -/
def Value.GetDouble : Value → JsonDouble
  | Value.double d => d
  | _ => ⟨0⟩

/-- `Value::GetBool()`; it requires a boolean. -/
def Value.GetBool : Value → Bool
  | Value.bool b => b
  | _ => false

/-- `Value::GetString()`; it requires a string. -/
def Value.GetString : Value → String
  | Value.string s => s
  | _ => ""

/-- The accessors that `LoadInt` reads a value with. -/
inductive Accessor where
  | GetString
  | GetBool
  | GetInt64
  | GetDouble
  | GetUint64
  deriving DecidableEq, Repr

/-- The condition that the accessor asserts on the value it is called on. -/
def Accessor.precondition : Accessor → Value → Bool
  | Accessor.GetString, v => decide (v.GetType = JsonType.kStringType)
  | Accessor.GetBool, v =>
    decide (v.GetType = JsonType.kFalseType ∨ v.GetType = JsonType.kTrueType)
  | Accessor.GetInt64, v => v.IsInt64
  | Accessor.GetDouble, v => v.IsNumber
  | Accessor.GetUint64, v => v.IsUint64

end rapidjson

namespace AZ

namespace JsonSerializationResult

/-- The tasks named in IntSerializer.cpp; `other` stands for those it does not name. -/
inductive Tasks where
  | ReadField
  | WriteValue
  | other (n : Nat)
  deriving DecidableEq, Repr

/-- The outcomes named in IntSerializer.cpp; `other` stands for those it does not
name. -/
inductive Outcomes where
  | Success
  | Default
  | Unsupported
  | Unknown
  | other (n : Nat)
  deriving DecidableEq, Repr

/-- A `ResultCode`: the task and its outcome. -/
structure ResultCode where
  task : Tasks
  outcome : Outcomes
  deriving DecidableEq, Repr

/-- `ResultCode::Success(task)`. -/
def ResultCode.Success (task : Tasks) : ResultCode := ⟨task, Outcomes.Success⟩

/-- `ResultCode::Default(task)`. -/
def ResultCode.Default (task : Tasks) : ResultCode := ⟨task, Outcomes.Default⟩

/-- `ResultCode::GetOutcome()`. -/
def ResultCode.GetOutcome (code : ResultCode) : Outcomes := code.outcome

/-- The messages that IntSerializer.cpp reports:
"Unsupported type. Integers can't be read from arrays, objects or null.",
"Successfully converted boolean to integer value.",
"Successfully read integer value from number field.",
"Failed to read integer value from number field.",
"Unknown json type encountered for integer.",
"Successfully stored integer value.",
"Skipped integer value because default was used.";
`other` is a message of a helper defined elsewhere. -/
inductive Message where
  | UnsupportedType
  | ConvertedBoolean
  | ReadNumber
  | FailedToReadNumber
  | UnknownJsonType
  | StoredInteger
  | SkippedDefault
  | other (text : String)
  deriving DecidableEq, Repr

/-- A `JsonSerializationResult::Result` (declared outside this file), as the message
and the result code it is constructed with. -/
structure Result where
  message : Message
  result : ResultCode
  deriving DecidableEq, Repr

end JsonSerializationResult

namespace SerializerInternal

open rapidjson JsonSerializationResult

/-- An integral type `T`: its signedness (`is_signed<T>`) and its width in bits. The
ten types of the serializers are `char` (8 bits, signed or unsigned by platform),
`short` (16), `int` (32), `long` (32 or 64), `long long` (64) and their unsigned
forms. -/
structure IntType where
  isSigned : Bool
  bits : Nat
  deriving DecidableEq, Repr

/-- Whether the integer `v` is a value of type `T`. -/
def IntType.holds (T : IntType) (v : Int) : Bool :=
  if T.isSigned then
    decide (-(2 : Int) ^ (T.bits - 1) ≤ v ∧ v < (2 : Int) ^ (T.bits - 1))
  else
    decide (0 ≤ v ∧ v < (2 : Int) ^ T.bits)

/-- `SerializerInternal::StoreToValue` (lines 45-55): the overload for signed `T`
calls `SetInt64`, the one for unsigned `T` calls `SetUint64`. -/
def StoreToValue (T : IntType) (inputValue : Int) : Value :=
  if T.isSigned then Value.SetInt64 inputValue else Value.SetUint64 inputValue

/-- The number handed to `JsonNumericCast<T>`: an `int64_t`, a `double` or a
`uint64_t`. -/
inductive NumericInput where
  | int64 (i : Int)
  | double (d : JsonDouble)
  | uint64 (u : Int)
  deriving DecidableEq, Repr

/-- What a call of `JsonNumericCast<T>(*outputValue, input, ...)` leaves behind: the
value written to the output (`none` when it is left alone) and the result code. -/
structure CastResult where
  written : Option Int
  result : ResultCode
  deriving DecidableEq, Repr

/-- What a call of `LoadInt` leaves behind: the value of `*outputValue`, the returned
result and the accessors called on the input value, in order. -/
structure LoadOutcome where
  outputValue : Int
  result : Result
  reads : List Accessor
  deriving DecidableEq, Repr

/-- `SerializerInternal::LoadInt<T>` (lines 57-109). `JsonNumericCast` and
`TextToValue` are defined outside this file and are parameters; `outputValue` is the
value of `*outputValue` before the call. The `default:` label of the switch (line 106,
"Unknown json type encountered for integer.") has no case here: `GetType()` returns one
of the seven enumerators of `rapidjson::Type`, and each has its own label. -/
def LoadInt (T : IntType) (JsonNumericCast : IntType → NumericInput → CastResult)
    (TextToValue : IntType → Int → String → Int × Result)
    (outputValue : Int) (inputValue : Value) : LoadOutcome :=
  match inputValue.GetType with
  | JsonType.kArrayType | JsonType.kObjectType | JsonType.kNullType =>
    { outputValue := outputValue,
      result := ⟨Message.UnsupportedType, ⟨Tasks.ReadField, Outcomes.Unsupported⟩⟩,
      reads := [] }
  | JsonType.kStringType =>
    let r := TextToValue T outputValue inputValue.GetString
    { outputValue := r.1, result := r.2, reads := [Accessor.GetString] }
  | JsonType.kFalseType | JsonType.kTrueType =>
    { outputValue := if inputValue.GetBool then 1 else 0,
      result := ⟨Message.ConvertedBoolean, ResultCode.Success Tasks.ReadField⟩,
      reads := [Accessor.GetBool] }
  | JsonType.kNumberType =>
    let cast :=
      if inputValue.IsInt64 then
        (JsonNumericCast T (NumericInput.int64 inputValue.GetInt64), Accessor.GetInt64)
      else if inputValue.IsDouble then
        (JsonNumericCast T (NumericInput.double inputValue.GetDouble), Accessor.GetDouble)
      else
        (JsonNumericCast T (NumericInput.uint64 inputValue.GetUint64), Accessor.GetUint64)
    { outputValue := cast.1.written.getD outputValue,
      result :=
        ⟨if cast.1.result.GetOutcome = Outcomes.Success then Message.ReadNumber
          else Message.FailedToReadNumber,
          cast.1.result⟩,
      reads := [cast.2] }

/-- `SerializerInternal::Store<T>` (lines 111-126): the output JSON value after the
call and the returned result. `inputValue` is the `T` read through the input pointer,
`defaultValue` the `T` read through the default pointer, `none` for a null pointer. -/
def Store (T : IntType) (outputValue : Value) (inputValue : Int) (defaultValue : Option Int)
    (m_keepDefaults : Bool) : Value × Result :=
  let inputValAsType := inputValue
  if m_keepDefaults || defaultValue.isNone || decide (some inputValAsType ≠ defaultValue) then
    (StoreToValue T inputValAsType,
      ⟨Message.StoredInteger, ResultCode.Success Tasks.WriteValue⟩)
  else
    (outputValue, ⟨Message.SkippedDefault, ResultCode.Default Tasks.WriteValue⟩)

/-- A numeric cast that returns its input unchanged with Success when it is a value of
`T`, and otherwise leaves the output alone and reports Unsupported; doubles are not
accepted. -/
def sampleNumericCast (T : IntType) (input : NumericInput) : CastResult :=
  match input with
  | NumericInput.int64 i =>
    if T.holds i then ⟨some i, ResultCode.Success Tasks.ReadField⟩
    else ⟨none, ⟨Tasks.ReadField, Outcomes.Unsupported⟩⟩
  | NumericInput.uint64 u =>
    if T.holds u then ⟨some u, ResultCode.Success Tasks.ReadField⟩
    else ⟨none, ⟨Tasks.ReadField, Outcomes.Unsupported⟩⟩
  | NumericInput.double _ => ⟨none, ⟨Tasks.ReadField, Outcomes.Unsupported⟩⟩

/-- A text conversion that accepts nothing. -/
def sampleTextToValue (_T : IntType) (outputValue : Int) (_text : String) : Int × Result :=
  (outputValue, ⟨Message.other "not a number", ⟨Tasks.ReadField, Outcomes.Unsupported⟩⟩)

/-- `unsigned long long`. -/
def sampleUnsignedLongLong : IntType := { isSigned := false, bits := 64 }

/-- `int`. -/
def sampleInt : IntType := { isSigned := true, bits := 32 }

end SerializerInternal

end AZ

/-! # Input channel notifications

(AzFramework/Input/Buses/Notifications/InputChannelNotificationBus.h) -/

namespace AzFramework

/-- A handler of the input channel notification bus. `GetPriority` is virtual (line
53): `overriddenPriority` is the value a derived handler returns from its override,
`none` when the handler does not override it. Priorities are `AZ::s32` values; they are
compared only, so they are taken as integers. -/
structure InputChannelEventNotifications where
  overriddenPriority : Option Int
  deriving DecidableEq, Repr

/-- `InputChannelEventNotifications::GetPriority` (line 53): 0 unless overridden. -/
def InputChannelEventNotifications.GetPriority (self : InputChannelEventNotifications) : Int :=
  match self.overriddenPriority with
  | some priority => priority
  | none => 0

/-- `InputChannelEventNotifications::Compare` (lines 59-62). -/
def InputChannelEventNotifications.Compare (self other : InputChannelEventNotifications) :
    Bool :=
  decide (self.GetPriority > other.GetPriority)

end AzFramework

/-! # Process launch parse tests (Framework/Tests/ProcessLaunchParseTests.cpp) -/

namespace UnitTest

namespace ProcessLaunchParseTests

/-- An `AZStd::string`, as its sequence of characters. -/
abbrev AzString := List Char

/-- `ParsedArgMap` (line 30), a map from a switch name to its values: an association
list with one entry per key, in order of first insertion. -/
abbrev ParsedArgMap := List (AzString × List AzString)

/-- `parsedArgs[key].push_back(value)`: `operator[]` creates the entry with an empty
vector when the key is missing. -/
def mapPushBack (m : ParsedArgMap) (key : AzString) (value : AzString) : ParsedArgMap :=
  match m with
  | [] => [(key, [value])]
  | (k, vs) :: rest =>
    if k = key then (k, vs ++ [value]) :: rest else (k, vs) :: mapPushBack rest key value

/-- The line "Switch List:". -/
def switchListMarker : AzString :=
  ['S', 'w', 'i', 't', 'c', 'h', ' ', 'L', 'i', 's', 't', ':']

/-- The line "End Switch List:". -/
def endSwitchListMarker : AzString :=
  ['E', 'n', 'd', ' ', 'S', 'w', 'i', 't', 'c', 'h', ' ', 'L', 'i', 's', 't', ':']

/-- The local variables of `ParseParameters` that the loop updates. -/
structure ParseState where
  parsedArgs : ParsedArgMap
  currentSwitch : AzString
  inSwitches : Bool
  deriving DecidableEq, Repr

/-- The body of the loop of `ParseParameters` (lines 45-73) for one line. -/
def parseLine (st : ParseState) (thisLine : AzString) : ParseState :=
  if thisLine = switchListMarker then
    { st with inSwitches := true }
  else if thisLine = endSwitchListMarker then
    { st with inSwitches := false }
  else if thisLine.isEmpty then
    st
  else if st.inSwitches then
    if thisLine.head? ≠ some ' ' then
      { st with currentSwitch := thisLine }
    else
      { st with parsedArgs := mapPushBack st.parsedArgs st.currentSwitch (thisLine.drop 1) }
  else
    st

/-- `AZStd::string::c_str()` as a callee reads it through its `const char*`
parameter: the characters of the string before its first NUL character. -/
def c_str (s : AzString) : AzString :=
  s.takeWhile (fun c => c != '\x00')

/-- `ProcessLaunchParseTests::ParseParameters` (lines 35-75).
`AzFramework::StringFunc::Tokenize` is defined outside this excerpt; it is the
parameter `Tokenize`, called with `processOutput.c_str()` (line 42) and the delimiter
characters CR and LF. -/
def ParseParameters (Tokenize : AzString → AzString → List AzString)
    (processOutput : AzString) : ParsedArgMap :=
  let parsedLines := Tokenize (c_str processOutput) ['\r', '\n']
  (parsedLines.foldl parseLine
    { parsedArgs := [], currentSwitch := [], inSwitches := false }).parsedArgs

/-- The lines of a switch dump: the name line of each switch followed by one line per
value, each prefixed with a single space. -/
def switchLines (switches : List (AzString × List AzString)) : List AzString :=
  switches.flatMap (fun sw => sw.1 :: sw.2.map (fun v => ' ' :: v))

/-- The non-empty pieces of a text cut at every delimiter character, in order;
`current` holds the characters of the piece being read, last first. -/
def nonEmptyTokensFrom (delimiters : AzString) (current : AzString) :
    AzString → List AzString
  | [] => if current.isEmpty then [] else [current.reverse]
  | c :: rest =>
    if c ∈ delimiters then
      if current.isEmpty then nonEmptyTokensFrom delimiters [] rest
      else current.reverse :: nonEmptyTokensFrom delimiters [] rest
    else
      nonEmptyTokensFrom delimiters (c :: current) rest

/-- The behaviour that the theorems on `ParseParameters` assume of `Tokenize` with its
optional arguments left out: the text is cut at every delimiter character and the
non-empty pieces are returned in order. -/
def nonEmptyTokens (text delimiters : AzString) : List AzString :=
  nonEmptyTokensFrom delimiters [] text

/-- The text made of the given lines, each followed by the line terminator `eol`. -/
def textOfLines (eol : AzString) (lines : List AzString) : AzString :=
  lines.flatMap (fun l => l ++ eol)

/-- The text of a switch dump: the lines `pre`, the line "Switch List:", the lines of
the switches, the line "End Switch List:", and the lines `post`. -/
def dumpText (eol : AzString) (pre : List AzString)
    (switches : List (AzString × List AzString)) (post : List AzString) : AzString :=
  textOfLines eol
    (pre ++ [switchListMarker] ++ switchLines switches ++ [endSwitchListMarker] ++ post)

/-- Whether the characters hold no NUL. -/
def nulFree (l : AzString) : Bool :=
  l.all (fun c => c != '\x00')

/-- The switches of the tests: `param1` holding `param` and `1val`, `param2` holding
`param2v` and `al`. -/
def sampleSwitches : List (AzString × List AzString) :=
  [("param1".toList, ["param".toList, "1val".toList]),
    ("param2".toList, ["param2v".toList, "al".toList])]

/-- A process output in the form of the tests: two lines of other output, the switch
list with `param1` holding `param` and `1val` and `param2` holding `param2v` and `al`,
and a last line after the list. -/
def sampleProcessOutput : AzString :=
  ("Launch test\r\nArgs:\r\nSwitch List:\r\nparam1\r\n param\r\n 1val\r\nparam2\r\n"
    ++ " param2v\r\n al\r\nEnd Switch List:\r\nDone\r\n").toList

end ProcessLaunchParseTests

end UnitTest

namespace AZ

namespace BusInternal

/-! ## Theorems -/



section Theorems

variable {Id H Fn Val : Type}

/-! ### Helper lemmas -/

theorem isFunctionQueuing_some (T : EBusImplTraits)
    (context : Context Id H (BusMessageCall Id Fn Val)) :
    IsFunctionQueuing T (some context) = (some context, context.m_queue.m_isActive) := rfl

theorem isFunctionQueuing_none (T : EBusImplTraits) :
    IsFunctionQueuing T (none : BusState Id H (BusMessageCall Id Fn Val))
      = (none, T.EventQueueingActiveByDefault) := rfl

theorem queueFunction_some_inactive (T : EBusImplTraits) (func : Function Fn)
    (args : List (Arg Id Fn Val)) (context : Context Id H (BusMessageCall Id Fn Val))
    (h : context.m_queue.m_isActive = false) :
    QueueFunction T func args (some context) = some context := by
  simp [QueueFunction, GetOrCreateContext, EBusQueuePolicy.IsActive, h]

theorem queueFunction_some_active (T : EBusImplTraits) (func : Function Fn)
    (args : List (Arg Id Fn Val)) (context : Context Id H (BusMessageCall Id Fn Val))
    (h : context.m_queue.m_isActive = true) :
    QueueFunction T func args (some context)
      = some { context with m_queue := context.m_queue.push ⟨func, args⟩ } := by
  simp [QueueFunction, GetOrCreateContext, EBusQueuePolicy.IsActive, h]

theorem queueFunction_none (T : EBusImplTraits) (func : Function Fn)
    (args : List (Arg Id Fn Val)) :
    QueueFunction T func args (none : BusState Id H (BusMessageCall Id Fn Val))
      = QueueFunction T func args (some (newContext T)) := rfl

/-- C1: when the queue is inactive at the call (`IsFunctionQueuing()` is false),
`QueueFunction(f, args...)` drops the call: the list of queued messages after the call
is the list before it, a bus that has a context is left exactly as it was, and the
call runs no callable. -/
theorem queueFunction_inactive_dropped [DecidableEq Id] [DecidableEq H]
    (T : EBusImplTraits) (C : HandlerConfig H)
    (body : BusMessageCall Id Fn Val → List (CallOp Id H Fn Val))
    (func : Function Fn) (args : List (Arg Id Fn Val))
    (s : BusState Id H (BusMessageCall Id Fn Val))
    (h : (IsFunctionQueuing T s).2 = false) :
    queuedMessages (QueueFunction T func args s) = queuedMessages s
    ∧ (∀ context, s = some context → QueueFunction T func args s = s)
    ∧ (BusOp.apply T C body (BusOp.call (CallOp.QueueFunction func args)) s).2 = [] := by
  refine ⟨?_, ?_, rfl⟩
  · cases s with
    | none =>
      rw [isFunctionQueuing_none] at h
      rw [queueFunction_none, queueFunction_some_inactive T func args _ (by simpa [newContext] using h)]
      rfl
    | some context =>
      rw [isFunctionQueuing_some] at h
      rw [queueFunction_some_inactive T func args context h]
  · intro context hs
    subst hs
    rw [isFunctionQueuing_some] at h
    exact queueFunction_some_inactive T func args context h

/-- C2: when the queue is active at the call (`IsFunctionQueuing()` is true),
`QueueFunction(f, args...)` keeps the queued messages as they were, in their order,
and puts exactly one new message, the one for `f` with its arguments, at the back; the
count grows by one and the call runs no callable. -/
theorem queueFunction_active_appends [DecidableEq Id] [DecidableEq H]
    (T : EBusImplTraits) (C : HandlerConfig H)
    (body : BusMessageCall Id Fn Val → List (CallOp Id H Fn Val))
    (func : Function Fn) (args : List (Arg Id Fn Val))
    (s : BusState Id H (BusMessageCall Id Fn Val))
    (h : (IsFunctionQueuing T s).2 = true) :
    queuedMessages (QueueFunction T func args s) = queuedMessages s ++ [⟨func, args⟩]
    ∧ (QueuedEventCount T (QueueFunction T func args s)).2 = (QueuedEventCount T s).2 + 1
    ∧ (BusOp.apply T C body (BusOp.call (CallOp.QueueFunction func args)) s).2 = [] := by
  have key : queuedMessages (QueueFunction T func args s)
      = queuedMessages s ++ [⟨func, args⟩] := by
    cases s with
    | none =>
      rw [isFunctionQueuing_none] at h
      rw [queueFunction_none, queueFunction_some_active T func args _ (by simpa [newContext] using h)]
      rfl
    | some context =>
      rw [isFunctionQueuing_some] at h
      rw [queueFunction_some_active T func args context h]
      rfl
  have cnt : ∀ st : BusState Id H (BusMessageCall Id Fn Val),
      (QueuedEventCount T st).2 = (queuedMessages st).length := by
    intro st
    cases st <;> rfl
  refine ⟨key, ?_, rfl⟩
  rw [cnt, cnt, key]
  simp

theorem queueFunction_inactive_dropped_witness :
    (IsFunctionQueuing sampleTraits
        (some (sampleContext false [sampleCall 1]) : SampleState)).2 = false
    ∧ (queuedMessages (QueueFunction sampleTraits (Function.user 2) []
          (some (sampleContext false [sampleCall 1]) : SampleState))
        = queuedMessages (some (sampleContext false [sampleCall 1]) : SampleState)
      ∧ (∀ context, (some (sampleContext false [sampleCall 1]) : SampleState) = some context →
          QueueFunction sampleTraits (Function.user 2) []
            (some (sampleContext false [sampleCall 1]) : SampleState)
            = some (sampleContext false [sampleCall 1]))
      ∧ (BusOp.apply sampleTraits sampleConfig sampleBody
          (BusOp.call (CallOp.QueueFunction (Function.user 2) []))
          (some (sampleContext false [sampleCall 1]) : SampleState)).2 = []) :=
  ⟨by decide,
    queueFunction_inactive_dropped sampleTraits sampleConfig sampleBody (Function.user 2) []
      (some (sampleContext false [sampleCall 1])) (by decide)⟩

theorem queueFunction_active_appends_witness :
    (IsFunctionQueuing sampleTraits
        (some (sampleContext true [sampleCall 1]) : SampleState)).2 = true
    ∧ (queuedMessages (QueueFunction sampleTraits (Function.user 2) []
          (some (sampleContext true [sampleCall 1]) : SampleState))
        = queuedMessages (some (sampleContext true [sampleCall 1]) : SampleState)
            ++ [⟨Function.user 2, []⟩]
      ∧ (QueuedEventCount sampleTraits (QueueFunction sampleTraits (Function.user 2) []
          (some (sampleContext true [sampleCall 1]) : SampleState))).2
        = (QueuedEventCount sampleTraits
            (some (sampleContext true [sampleCall 1]) : SampleState)).2 + 1
      ∧ (BusOp.apply sampleTraits sampleConfig sampleBody
          (BusOp.call (CallOp.QueueFunction (Function.user 2) []))
          (some (sampleContext true [sampleCall 1]) : SampleState)).2 = []) :=
  ⟨by decide,
    queueFunction_active_appends sampleTraits sampleConfig sampleBody (Function.user 2) []
      (some (sampleContext true [sampleCall 1])) (by decide)⟩

/-! ### ExecuteQueuedEvents -/

/-- The scenario of the spec: `f1` and `f2` are queued and `f1` enqueues `f3` while it
runs. The pass runs `f1` then `f2` and leaves `f3` queued; the next pass runs `f3` and
leaves the queue empty. -/
theorem executeQueuedEvents_scenario :
    ExecuteQueuedEvents sampleTraits (invokeCalls sampleTraits sampleConfig sampleBody)
        (some (sampleContext true [sampleCall 1, sampleCall 2]))
      = (some (sampleContext true [sampleCall 3]), [sampleCall 1, sampleCall 2])
    ∧ ExecuteQueuedEvents sampleTraits (invokeCalls sampleTraits sampleConfig sampleBody)
        (some (sampleContext true [sampleCall 3]))
      = (some (sampleContext true []), [sampleCall 3]) := by
  decide

/-- A callable that clears the queue removes what an earlier callable of the same pass
enqueued: with `f1` enqueuing `f3` and `f2` calling `ClearQueuedEvents()`, the pass
runs `f1` then `f2` and returns with an empty queue. -/
theorem executeQueuedEvents_clearing_scenario :
    ExecuteQueuedEvents sampleTraits (invokeCalls sampleTraits sampleConfig sampleBodyClearing)
        (some (sampleContext true [sampleCall 1, sampleCall 2]))
      = (some (sampleContext true []), [sampleCall 1, sampleCall 2]) := by
  decide

/-! ### AllowFunctionQueuing and IsFunctionQueuing -/

theorem queuedMessages_allowFunctionQueuing (T : EBusImplTraits) (isAllowed : Bool)
    (s : BusState Id H (BusMessageCall Id Fn Val)) :
    queuedMessages (AllowFunctionQueuing T isAllowed s) = queuedMessages s := by
  cases s <;> rfl

theorem isFunctionQueuing_allowFunctionQueuing (T : EBusImplTraits) (isAllowed : Bool)
    (s : BusState Id H (BusMessageCall Id Fn Val)) :
    (IsFunctionQueuing T (AllowFunctionQueuing T isAllowed s)).2 = isAllowed := by
  cases s <;> rfl

theorem queueFunction_after_disallow (T : EBusImplTraits) (func : Function Fn)
    (args : List (Arg Id Fn Val)) (s : BusState Id H (BusMessageCall Id Fn Val)) :
    queuedMessages (QueueFunction T func args (AllowFunctionQueuing T false s))
      = queuedMessages s := by
  cases s <;> rfl

theorem queueFunction_after_allow (T : EBusImplTraits) (func : Function Fn)
    (args : List (Arg Id Fn Val)) (s : BusState Id H (BusMessageCall Id Fn Val)) :
    queuedMessages (QueueFunction T func args (AllowFunctionQueuing T true s))
      = queuedMessages s ++ [⟨func, args⟩] := by
  cases s <;> rfl

/-- C4 (what the code does): after `AllowFunctionQueuing(false)` every event form,
`QueueEvent`, `QueueEventReverse` (by id or by cached pointer), `QueueBroadcast` and
`QueueBroadcastReverse`, leaves the queue as it was, whereas after
`AllowFunctionQueuing(true)` the same call appends its message. -/
theorem queueEvent_follows_allowFunctionQueuing (T : EBusImplTraits) (id : Id)
    (ptr : Option Id) (func : Fn) (args : List Val)
    (s : BusState Id H (BusMessageCall Id Fn Val)) :
    (queuedMessages (QueueEvent T id func args (AllowFunctionQueuing T false s))
        = queuedMessages s
      ∧ queuedMessages (QueueEventPtr T ptr func args (AllowFunctionQueuing T false s))
        = queuedMessages s
      ∧ queuedMessages (QueueEventReverse T id func args (AllowFunctionQueuing T false s))
        = queuedMessages s
      ∧ queuedMessages (QueueEventReversePtr T ptr func args (AllowFunctionQueuing T false s))
        = queuedMessages s
      ∧ queuedMessages (QueueBroadcast T func args (AllowFunctionQueuing T false s))
        = queuedMessages s
      ∧ queuedMessages (QueueBroadcastReverse T func args (AllowFunctionQueuing T false s))
        = queuedMessages s)
    ∧ (queuedMessages (QueueEvent T id func args (AllowFunctionQueuing T true s))
        = queuedMessages s
            ++ [⟨Function.Event, Arg.id id :: Arg.func func :: args.map Arg.val⟩]
      ∧ queuedMessages (QueueBroadcast T func args (AllowFunctionQueuing T true s))
        = queuedMessages s ++ [⟨Function.Broadcast, Arg.func func :: args.map Arg.val⟩]) :=
  ⟨⟨queueFunction_after_disallow T _ _ s, queueFunction_after_disallow T _ _ s,
      queueFunction_after_disallow T _ _ s, queueFunction_after_disallow T _ _ s,
      queueFunction_after_disallow T _ _ s, queueFunction_after_disallow T _ _ s⟩,
    queueFunction_after_allow T _ _ s, queueFunction_after_allow T _ _ s⟩

/-- C5: `AllowFunctionQueuing(b)` changes only whether new deferred calls are accepted:
the queued calls, their order and their number are the same after the call as before
it, for `b` true and for `b` false; on a bus that has a context nothing but the
activity flag changes, and afterwards `IsFunctionQueuing()` returns `b`. -/
theorem allowFunctionQueuing_keeps_queue (T : EBusImplTraits) (isAllowed : Bool)
    (s : BusState Id H (BusMessageCall Id Fn Val))
    (context : Context Id H (BusMessageCall Id Fn Val)) :
    queuedMessages (AllowFunctionQueuing T isAllowed s) = queuedMessages s
    ∧ (QueuedEventCount T (AllowFunctionQueuing T isAllowed s)).2 = (QueuedEventCount T s).2
    ∧ AllowFunctionQueuing T isAllowed (some context)
        = some { context with m_queue := { context.m_queue with m_isActive := isAllowed } }
    ∧ (IsFunctionQueuing T (AllowFunctionQueuing T isAllowed s)).2 = isAllowed := by
  refine ⟨queuedMessages_allowFunctionQueuing T isAllowed s, ?_, rfl,
    isFunctionQueuing_allowFunctionQueuing T isAllowed s⟩
  cases s <;> rfl

/-- C6: without a context `IsFunctionQueuing()` returns the configuration flag
`EventQueueingActiveByDefault`; with a context it returns the queue's `IsActive()`.
In both cases the bus state after the call is the state before it. -/
theorem isFunctionQueuing_value (T : EBusImplTraits)
    (context : Context Id H (BusMessageCall Id Fn Val)) :
    IsFunctionQueuing T (none : BusState Id H (BusMessageCall Id Fn Val))
        = (none, T.EventQueueingActiveByDefault)
    ∧ IsFunctionQueuing T (some context) = (some context, context.m_queue.IsActive) :=
  ⟨isFunctionQueuing_none T, isFunctionQueuing_some T context⟩

/-! ### Calls that leave the activity flag and the context alone -/

theorem isFunctionQueuing_queueFunction (T : EBusImplTraits) (func : Function Fn)
    (args : List (Arg Id Fn Val)) (s : BusState Id H (BusMessageCall Id Fn Val)) :
    (IsFunctionQueuing T (QueueFunction T func args s)).2 = (IsFunctionQueuing T s).2 := by
  cases s with
  | none =>
    by_cases h : T.EventQueueingActiveByDefault = true <;>
      simp [QueueFunction, GetOrCreateContext, EBusQueuePolicy.IsActive, newContext, h,
        IsFunctionQueuing, GetContextNoArg, GetContext, EBusQueuePolicy.push]
  | some context =>
    by_cases h : context.m_queue.m_isActive = true <;>
      simp [QueueFunction, GetOrCreateContext, EBusQueuePolicy.IsActive, h,
        IsFunctionQueuing, GetContextNoArg, GetContext, EBusQueuePolicy.push]

/-- Every call other than `AllowFunctionQueuing` leaves the answer of
`IsFunctionQueuing()` as it was. -/
theorem isFunctionQueuing_apply [DecidableEq Id] [DecidableEq H]
    (T : EBusImplTraits) (C : HandlerConfig H) (op : CallOp Id H Fn Val)
    (s : BusState Id H (BusMessageCall Id Fn Val))
    (hop : ∀ b, op ≠ CallOp.AllowFunctionQueuing b) :
    (IsFunctionQueuing T (op.apply T C s)).2 = (IsFunctionQueuing T s).2 := by
  cases op with
  | AllowFunctionQueuing isAllowed => exact absurd rfl (hop isAllowed)
  | QueueFunction func args => exact isFunctionQueuing_queueFunction T func args s
  | QueueBroadcast func args => exact isFunctionQueuing_queueFunction T _ _ s
  | QueueBroadcastReverse func args => exact isFunctionQueuing_queueFunction T _ _ s
  | QueueEvent id func args => exact isFunctionQueuing_queueFunction T _ _ s
  | QueueEventPtr ptr func args => exact isFunctionQueuing_queueFunction T _ _ s
  | QueueEventReverse id func args => exact isFunctionQueuing_queueFunction T _ _ s
  | QueueEventReversePtr ptr func args => exact isFunctionQueuing_queueFunction T _ _ s
  | Bind id => cases s <;> rfl
  | Connect h id order =>
    cases s <;>
      (simp only [CallOp.apply, Connect, GetOrCreateContext]
       split <;> rfl)
  | Disconnect h => cases s <;> rfl
  | FindFirstHandler id => rfl
  | FindFirstHandlerPtr ptr => rfl
  | FindFirstHandlerAll => rfl
  | GetNumOfEventHandlers id => rfl
  | IsFunctionQueuing => cases s <;> rfl
  | ClearQueuedEvents => cases s <;> rfl
  | QueuedEventCount => cases s <;> rfl

theorem isFunctionQueuing_applyCalls [DecidableEq Id] [DecidableEq H]
    (T : EBusImplTraits) (C : HandlerConfig H) (ops : List (CallOp Id H Fn Val)) :
    ∀ (s : BusState Id H (BusMessageCall Id Fn Val)),
      (∀ op ∈ ops, ∀ b, op ≠ CallOp.AllowFunctionQueuing b) →
      (IsFunctionQueuing T (applyCalls T C ops s)).2 = (IsFunctionQueuing T s).2 := by
  induction ops with
  | nil => intro s _; rfl
  | cons op rest ih =>
    intro s hno
    have h1 := isFunctionQueuing_apply T C op s (hno op (by simp))
    have h2 := ih (op.apply T C s) (fun x hx => hno x (List.mem_cons_of_mem _ hx))
    exact h2.trans h1

theorem isFunctionQueuing_runMessages [DecidableEq Id] [DecidableEq H]
    (T : EBusImplTraits) (C : HandlerConfig H)
    (body : BusMessageCall Id Fn Val → List (CallOp Id H Fn Val))
    (hbody : ∀ m, ∀ op ∈ body m, ∀ b, op ≠ CallOp.AllowFunctionQueuing b)
    (ms : List (BusMessageCall Id Fn Val)) :
    ∀ (s : BusState Id H (BusMessageCall Id Fn Val)),
      (IsFunctionQueuing T (runMessages (invokeCalls T C body) ms s).1).2
        = (IsFunctionQueuing T s).2 := by
  induction ms with
  | nil => intro s; rfl
  | cons m rest ih =>
    intro s
    have h1 := isFunctionQueuing_applyCalls T C (body m) s (hbody m)
    exact (ih (invokeCalls T C body m s)).trans h1

/-- A call made from outside that is not `AllowFunctionQueuing`, the queued callables
not calling it either, leaves the answer of `IsFunctionQueuing()` as it was. -/
theorem isFunctionQueuing_busOp [DecidableEq Id] [DecidableEq H]
    (T : EBusImplTraits) (C : HandlerConfig H)
    (body : BusMessageCall Id Fn Val → List (CallOp Id H Fn Val))
    (hbody : ∀ m, ∀ op ∈ body m, ∀ b, op ≠ CallOp.AllowFunctionQueuing b)
    (op : BusOp Id H Fn Val) (s : BusState Id H (BusMessageCall Id Fn Val))
    (hop : ∀ b, op ≠ BusOp.call (CallOp.AllowFunctionQueuing b)) :
    (IsFunctionQueuing T (op.apply T C body s).1).2 = (IsFunctionQueuing T s).2 := by
  cases op with
  | call c =>
    exact isFunctionQueuing_apply T C c s (fun b h => hop b (by rw [h]))
  | ExecuteQueuedEvents =>
    cases s with
    | none => rfl
    | some context =>
      simp only [BusOp.apply, ExecuteQueuedEvents, GetContextNoArg, GetContext,
        EBusQueuePolicy.Execute]
      rw [isFunctionQueuing_runMessages T C body hbody]
      rfl

theorem lifeCycle_apply [DecidableEq Id] [DecidableEq H]
    (T : EBusImplTraits) (C : HandlerConfig H) (op : CallOp Id H Fn Val)
    (context : Context Id H (BusMessageCall Id Fn Val)) :
    ∃ context', op.apply T C (some context) = some context' := by
  cases op with
  | Connect h id order =>
    simp only [CallOp.apply, Connect, GetOrCreateContext]
    split <;> exact ⟨_, rfl⟩
  | QueueFunction func args =>
    simp only [CallOp.apply, QueueFunction]
    split <;> exact ⟨_, rfl⟩
  | QueueBroadcast func args =>
    simp only [CallOp.apply, QueueBroadcast, QueueFunction]
    split <;> exact ⟨_, rfl⟩
  | QueueBroadcastReverse func args =>
    simp only [CallOp.apply, QueueBroadcastReverse, QueueFunction]
    split <;> exact ⟨_, rfl⟩
  | QueueEvent id func args =>
    simp only [CallOp.apply, QueueEvent, QueueFunction]
    split <;> exact ⟨_, rfl⟩
  | QueueEventPtr ptr func args =>
    simp only [CallOp.apply, QueueEventPtr, QueueFunction]
    split <;> exact ⟨_, rfl⟩
  | QueueEventReverse id func args =>
    simp only [CallOp.apply, QueueEventReverse, QueueFunction]
    split <;> exact ⟨_, rfl⟩
  | QueueEventReversePtr ptr func args =>
    simp only [CallOp.apply, QueueEventReversePtr, QueueFunction]
    split <;> exact ⟨_, rfl⟩
  | Bind id => exact ⟨_, rfl⟩
  | Disconnect h => exact ⟨_, rfl⟩
  | FindFirstHandler id => exact ⟨_, rfl⟩
  | FindFirstHandlerPtr ptr => exact ⟨_, rfl⟩
  | FindFirstHandlerAll => exact ⟨_, rfl⟩
  | GetNumOfEventHandlers id => exact ⟨_, rfl⟩
  | AllowFunctionQueuing isAllowed => exact ⟨_, rfl⟩
  | IsFunctionQueuing => exact ⟨_, rfl⟩
  | ClearQueuedEvents => exact ⟨_, rfl⟩
  | QueuedEventCount => exact ⟨_, rfl⟩

theorem lifeCycle_applyCalls [DecidableEq Id] [DecidableEq H]
    (T : EBusImplTraits) (C : HandlerConfig H) (ops : List (CallOp Id H Fn Val)) :
    ∀ (context : Context Id H (BusMessageCall Id Fn Val)),
      ∃ context', applyCalls T C ops (some context) = some context' := by
  induction ops with
  | nil => intro context; exact ⟨context, rfl⟩
  | cons op rest ih =>
    intro context
    obtain ⟨c1, h1⟩ := lifeCycle_apply T C op context
    obtain ⟨c2, h2⟩ := ih c1
    exact ⟨c2, by simp only [applyCalls, List.foldl_cons] at h2 ⊢; rw [h1]; exact h2⟩

theorem lifeCycle_runMessages [DecidableEq Id] [DecidableEq H]
    (T : EBusImplTraits) (C : HandlerConfig H)
    (body : BusMessageCall Id Fn Val → List (CallOp Id H Fn Val))
    (ms : List (BusMessageCall Id Fn Val)) :
    ∀ (context : Context Id H (BusMessageCall Id Fn Val)),
      ∃ context', (runMessages (invokeCalls T C body) ms (some context)).1 = some context' := by
  induction ms with
  | nil => intro context; exact ⟨context, rfl⟩
  | cons m rest ih =>
    intro context
    obtain ⟨c1, h1⟩ := lifeCycle_applyCalls T C (body m) context
    obtain ⟨c2, h2⟩ := ih c1
    exact ⟨c2, by simp only [runMessages, invokeCalls]; rw [h1]; exact h2⟩

theorem lifeCycle_busOp [DecidableEq Id] [DecidableEq H]
    (T : EBusImplTraits) (C : HandlerConfig H)
    (body : BusMessageCall Id Fn Val → List (CallOp Id H Fn Val))
    (op : BusOp Id H Fn Val) (context : Context Id H (BusMessageCall Id Fn Val)) :
    ∃ context', (op.apply T C body (some context)).1 = some context' := by
  cases op with
  | call c => exact lifeCycle_apply T C c context
  | ExecuteQueuedEvents => exact lifeCycle_runMessages T C body _ _

theorem lifeCycle_queueFunction (T : EBusImplTraits) (func : Function Fn)
    (args : List (Arg Id Fn Val)) (s : BusState Id H (BusMessageCall Id Fn Val)) :
    lifeCycle (QueueFunction T func args s) = LifeCycle.ContextActive := by
  simp only [QueueFunction]
  split <;> rfl

/-- C7: a bus configured with `EnableEventQueue = true` and
`EventQueueingActiveByDefault = false`, on which `AllowFunctionQueuing` has never been
called, answers `IsFunctionQueuing()` with false, both before its context exists and
after a `QueueFunction` call has created it. The doc comment of `AllowFunctionQueuing`
(lines 357-361) says that function queuing is allowed by default when
`EnableEventQueue` is true. -/
theorem isFunctionQueuing_default_disallowed :
    sampleTraitsInactive.EnableEventQueue = true
    ∧ (IsFunctionQueuing sampleTraitsInactive (none : SampleState)).2 = false
    ∧ (IsFunctionQueuing sampleTraitsInactive
        (QueueFunction sampleTraitsInactive (Function.user 1) [] (none : SampleState))).2
        = false := by
  decide

/-- What the code answers by default: on a bus with `EnableEventQueue = true` on which
`AllowFunctionQueuing` has never been called, neither from outside nor by a queued
callable, `IsFunctionQueuing()` returns the configuration flag
`EventQueueingActiveByDefault`, after any sequence of other bus calls. -/
theorem isFunctionQueuing_default [DecidableEq Id] [DecidableEq H]
    (T : EBusImplTraits) (C : HandlerConfig H)
    (body : BusMessageCall Id Fn Val → List (CallOp Id H Fn Val))
    (ops : List (BusOp Id H Fn Val))
    (_hqueue : T.EnableEventQueue = true)
    (hbody : ∀ m, ∀ op ∈ body m, ∀ b, op ≠ CallOp.AllowFunctionQueuing b)
    (hops : ∀ op ∈ ops, ∀ b, op ≠ BusOp.call (CallOp.AllowFunctionQueuing b)) :
    (IsFunctionQueuing T (applyOps T C body ops none)).2 = T.EventQueueingActiveByDefault := by
  have gen : ∀ (l : List (BusOp Id H Fn Val)) (s : BusState Id H (BusMessageCall Id Fn Val)),
      (∀ op ∈ l, ∀ b, op ≠ BusOp.call (CallOp.AllowFunctionQueuing b)) →
      (IsFunctionQueuing T (applyOps T C body l s)).2 = (IsFunctionQueuing T s).2 := by
    intro l
    induction l with
    | nil => intro s _; rfl
    | cons op rest ih =>
      intro s hno
      have h1 := isFunctionQueuing_busOp T C body hbody op s (hno op (by simp))
      have h2 := ih (op.apply T C body s).1 (fun x hx => hno x (List.mem_cons_of_mem _ hx))
      exact h2.trans h1
  rw [gen ops none hops]
  rfl

theorem isFunctionQueuing_default_witness :
    (sampleTraitsInactive.EnableEventQueue = true
      ∧ (∀ m, ∀ op ∈ sampleBody m, ∀ b, op ≠ CallOp.AllowFunctionQueuing b)
      ∧ (∀ op ∈ [BusOp.call (CallOp.QueueFunction (Function.user 1) []),
            (BusOp.ExecuteQueuedEvents : BusOp Nat Nat Nat Int)],
          ∀ b, op ≠ BusOp.call (CallOp.AllowFunctionQueuing b)))
    ∧ (IsFunctionQueuing sampleTraitsInactive
        (applyOps sampleTraitsInactive sampleConfig sampleBody
          [BusOp.call (CallOp.QueueFunction (Function.user 1) []), BusOp.ExecuteQueuedEvents]
          none)).2 = sampleTraitsInactive.EventQueueingActiveByDefault :=
  have hb : ∀ m, ∀ op ∈ sampleBody m, ∀ b, op ≠ CallOp.AllowFunctionQueuing b := by
    intro m op hop b
    unfold sampleBody at hop
    split at hop <;> simp at hop
    subst hop
    simp
  have ho : ∀ op ∈ [BusOp.call (CallOp.QueueFunction (Function.user 1) []),
      (BusOp.ExecuteQueuedEvents : BusOp Nat Nat Nat Int)],
      ∀ b, op ≠ BusOp.call (CallOp.AllowFunctionQueuing b) := by
    intro op hop b
    simp at hop
    rcases hop with h | h <;> subst h <;> simp
  ⟨⟨rfl, hb, ho⟩,
    isFunctionQueuing_default sampleTraitsInactive sampleConfig sampleBody _ rfl hb ho⟩

/-! ### A bus without a context -/

/-- C8: on a bus whose context has not been created, `ExecuteQueuedEvents()` runs no
callable, `ClearQueuedEvents()` does nothing, `QueuedEventCount()` returns 0, and after
each of them, and after `IsFunctionQueuing()`, the bus still has no context. -/
theorem queue_calls_without_context (T : EBusImplTraits)
    (invoke : BusMessageCall Id Fn Val → BusState Id H (BusMessageCall Id Fn Val) →
      BusState Id H (BusMessageCall Id Fn Val)) :
    ExecuteQueuedEvents T invoke (none : BusState Id H (BusMessageCall Id Fn Val)) = (none, [])
    ∧ ClearQueuedEvents T (none : BusState Id H (BusMessageCall Id Fn Val)) = none
    ∧ QueuedEventCount T (none : BusState Id H (BusMessageCall Id Fn Val)) = (none, 0)
    ∧ (IsFunctionQueuing T (none : BusState Id H (BusMessageCall Id Fn Val))).1 = none
    ∧ lifeCycle (ExecuteQueuedEvents T invoke
        (none : BusState Id H (BusMessageCall Id Fn Val))).1 = LifeCycle.Uninitialized :=
  ⟨rfl, rfl, rfl, rfl, rfl⟩

/-! ### Life cycle -/

/-- C9: over the states Uninitialized and ContextActive, every call of `Bind` and of
`QueueFunction`, hence of `QueueEvent`, `QueueEventReverse` (by id or by pointer),
`QueueBroadcast` and `QueueBroadcastReverse`, ends in ContextActive, from either state
and whether or not the queue accepts the call; and no call of the bus interface,
`ExecuteQueuedEvents` with the calls its callables make included, takes a bus that has
a context to a state without one. -/
theorem bus_lifeCycle [DecidableEq Id] [DecidableEq H]
    (T : EBusImplTraits) (C : HandlerConfig H)
    (body : BusMessageCall Id Fn Val → List (CallOp Id H Fn Val))
    (s : BusState Id H (BusMessageCall Id Fn Val))
    (context : Context Id H (BusMessageCall Id Fn Val))
    (id : Id) (ptr : Option Id) (func : Function Fn) (args : List (Arg Id Fn Val))
    (f : Fn) (vals : List Val) (op : BusOp Id H Fn Val) :
    lifeCycle (Bind T id s).1 = LifeCycle.ContextActive
    ∧ lifeCycle (QueueFunction T func args s) = LifeCycle.ContextActive
    ∧ lifeCycle (QueueEvent T id f vals s) = LifeCycle.ContextActive
    ∧ lifeCycle (QueueEventPtr T ptr f vals s) = LifeCycle.ContextActive
    ∧ lifeCycle (QueueEventReverse T id f vals s) = LifeCycle.ContextActive
    ∧ lifeCycle (QueueEventReversePtr T ptr f vals s) = LifeCycle.ContextActive
    ∧ lifeCycle (QueueBroadcast T f vals s) = LifeCycle.ContextActive
    ∧ lifeCycle (QueueBroadcastReverse T f vals s) = LifeCycle.ContextActive
    ∧ lifeCycle (op.apply T C body (some context)).1 = LifeCycle.ContextActive := by
  refine ⟨rfl, lifeCycle_queueFunction T _ _ s, lifeCycle_queueFunction T _ _ s,
    lifeCycle_queueFunction T _ _ s, lifeCycle_queueFunction T _ _ s,
    lifeCycle_queueFunction T _ _ s, lifeCycle_queueFunction T _ _ s,
    lifeCycle_queueFunction T _ _ s, ?_⟩
  obtain ⟨c, hc⟩ := lifeCycle_busOp T C body op context
  rw [hc]
  rfl

/-! ### FindFirstHandler -/

theorem enumerate_findFirstCallback (hs : List (HandlerNode H)) (init : Option H)
    (hinit : init = none) :
    enumerate findFirstCallback hs init
      = (hs.head?.map (fun n => n.m_handler), (hs.take 1).map (fun n => n.m_handler)) := by
  cases hs with
  | nil => subst hinit; rfl
  | cons n rest => simp [enumerate, findFirstCallback]

theorem handlersAt_setAddress [DecidableEq Id] (buses : List (Id × List (HandlerNode H)))
    (id : Id) (hs : List (HandlerNode H)) :
    handlersAt (setAddress buses id hs) id = hs := by
  induction buses with
  | nil => simp [setAddress, handlersAt, findAddress]
  | cons a rest ih =>
    obtain ⟨k, old⟩ := a
    by_cases hk : k = id
    · simp [setAddress, handlersAt, findAddress, hk]
    · simpa [setAddress, handlersAt, findAddress, hk] using ih

theorem handlersAt_map_filter [DecidableEq Id] (buses : List (Id × List (HandlerNode H)))
    (id : Id) (p : HandlerNode H → Bool) :
    handlersAt (buses.map (fun a => (a.1, a.2.filter p))) id
      = (handlersAt buses id).filter p := by
  induction buses with
  | nil => simp [handlersAt, findAddress]
  | cons a rest ih =>
    obtain ⟨k, old⟩ := a
    by_cases hk : k = id
    · simp [handlersAt, findAddress, hk]
    · simpa [handlersAt, findAddress, hk] using ih

theorem insertHandler_nil (P : EBusHandlerPolicy)
    (less : HandlerNode H → HandlerNode H → Bool) (n : HandlerNode H) :
    insertHandler P less n [] = [n] := by
  cases P <;> rfl

theorem handlersAt_of_all_empty [DecidableEq Id] (buses : List (Id × List (HandlerNode H)))
    (id : Id) (hall : ∀ a ∈ buses, a.2 = []) : handlersAt buses id = [] := by
  induction buses with
  | nil => simp [handlersAt, findAddress]
  | cons a rest ih =>
    obtain ⟨k, old⟩ := a
    have hold : old = [] := hall (k, old) (by simp)
    have hrest := ih (fun x hx => hall x (List.mem_cons_of_mem _ hx))
    by_cases hk : k = id
    · simp [handlersAt, findAddress, hk, hold]
    · simpa [handlersAt, findAddress, hk] using hrest

theorem isConnected_of_all_empty [DecidableEq H] (buses : List (Id × List (HandlerNode H)))
    (h : H) (hall : ∀ a ∈ buses, a.2 = []) : isConnected buses h = false := by
  simp only [isConnected, List.any_eq_false]
  intro a ha
  rw [hall a ha]
  simp

theorem flatMap_setAddress_of_all_empty [DecidableEq Id]
    (buses : List (Id × List (HandlerNode H))) (id : Id) (hs : List (HandlerNode H))
    (hall : ∀ a ∈ buses, a.2 = []) :
    (setAddress buses id hs).flatMap (fun a => a.2) = hs := by
  induction buses with
  | nil => simp [setAddress]
  | cons a rest ih =>
    obtain ⟨k, old⟩ := a
    have hold : old = [] := hall (k, old) (by simp)
    have hrest : ∀ x ∈ rest, x.2 = [] := fun x hx => hall x (List.mem_cons_of_mem _ hx)
    by_cases hk : k = id
    · have : rest.flatMap (fun a => a.2) = [] := List.flatMap_eq_nil_iff.mpr hrest
      simp [setAddress, hk, this]
    · simp [setAddress, hk, hold, ih hrest]

theorem flatMap_map_filter (buses : List (Id × List (HandlerNode H)))
    (p : HandlerNode H → Bool) :
    (buses.map (fun a => (a.1, a.2.filter p))).flatMap (fun a => a.2)
      = (buses.flatMap (fun a => a.2)).filter p := by
  induction buses with
  | nil => rfl
  | cons a rest ih => simp [ih]

theorem handlersOfId_connect [DecidableEq Id] [DecidableEq H] (T : EBusImplTraits)
    (P : EBusHandlerPolicy) (less : HandlerNode H → HandlerNode H → Bool)
    (h : H) (id : Id) (order : Int) (s : BusState Id H (BusMessageCall Id Fn Val))
    (hzero : handlersOfId s id = []) (hfree : isConnectedOnBus s h = false) :
    handlersOfId (Connect T P less h id order s) id = [⟨h, order⟩] := by
  cases s with
  | none =>
    simp [Connect, GetOrCreateContext, newContext, isConnected, handlersOfId,
      handlersAt_setAddress, handlersAt, findAddress, insertHandler_nil]
  | some context =>
    simp only [isConnectedOnBus] at hfree
    simp only [handlersOfId] at hzero
    simp [Connect, GetOrCreateContext, hfree, handlersOfId, handlersAt_setAddress, hzero,
      insertHandler_nil]

theorem handlersOfId_disconnect [DecidableEq Id] [DecidableEq H] (h : H) (id : Id)
    (s : BusState Id H (BusMessageCall Id Fn Val)) :
    handlersOfId (Disconnect h s) id
      = (handlersOfId s id).filter (fun n => !decide (n.m_handler = h)) := by
  cases s with
  | none => rfl
  | some context => simp [Disconnect, handlersOfId, handlersAt_map_filter]

theorem handlersOfBus_connect [DecidableEq Id] [DecidableEq H] (T : EBusImplTraits)
    (P : EBusHandlerPolicy) (less : HandlerNode H → HandlerNode H → Bool)
    (h : H) (id : Id) (order : Int) (s : BusState Id H (BusMessageCall Id Fn Val))
    (hall : handlersOfBus s = []) :
    handlersOfBus (Connect T P less h id order s) = [⟨h, order⟩] := by
  cases s with
  | none =>
    simp [Connect, GetOrCreateContext, newContext, isConnected, handlersOfBus,
      handlersAt, findAddress, insertHandler_nil, setAddress]
  | some context =>
    simp only [handlersOfBus] at hall
    have hempty : ∀ a ∈ context.m_buses, a.2 = [] := List.flatMap_eq_nil_iff.mp hall
    simp [Connect, GetOrCreateContext, isConnected_of_all_empty _ h hempty, handlersOfBus,
      handlersAt_of_all_empty _ id hempty, insertHandler_nil,
      flatMap_setAddress_of_all_empty _ id _ hempty]

theorem handlersOfBus_disconnect [DecidableEq H] (h : H)
    (s : BusState Id H (BusMessageCall Id Fn Val)) :
    handlersOfBus (Disconnect h s)
      = (handlersOfBus s).filter (fun n => !decide (n.m_handler = h)) := by
  cases s with
  | none => rfl
  | some context => simp [Disconnect, handlersOfBus, flatMap_map_filter]

theorem findFirstHandler_eq [DecidableEq Id] (s : BusState Id H (BusMessageCall Id Fn Val))
    (id : Id) :
    FindFirstHandler s id = (s, (handlersOfId s id).head?.map (fun n => n.m_handler)) := by
  simp [FindFirstHandler, EnumerateHandlersId, enumerate_findFirstCallback]

theorem findFirstHandlerAll_eq (s : BusState Id H (BusMessageCall Id Fn Val)) :
    FindFirstHandlerAll s = (s, (handlersOfBus s).head?.map (fun n => n.m_handler)) := by
  simp [FindFirstHandlerAll, EnumerateHandlers, enumerate_findFirstCallback]

/-- C10: `FindFirstHandler`, by address id, by cached address pointer and, without
argument, over all handlers of the bus, returns the first handler in enumeration order
when there is one and null when there is none, leaves the bus state as it was, and
its callback is called on the first handler only. With no handler at the address it
returns null; after connecting one handler `h` there it returns `h`; after
disconnecting `h` it returns null again, and likewise for the no-argument form on a
bus without handlers. -/
theorem findFirstHandler_first [DecidableEq Id] [DecidableEq H] (T : EBusImplTraits)
    (P : EBusHandlerPolicy) (less : HandlerNode H → HandlerNode H → Bool)
    (s s0 s1 : BusState Id H (BusMessageCall Id Fn Val)) (id id0 : Id) (ptr : Option Id)
    (h : H) (order : Int)
    (hzero : handlersOfId s0 id0 = []) (hfree : isConnectedOnBus s0 h = false)
    (hall : handlersOfBus s1 = []) :
    (FindFirstHandler s id = (s, (handlersOfId s id).head?.map (fun n => n.m_handler))
      ∧ FindFirstHandlerPtr s ptr
          = (s, (handlersOfPtr s ptr).head?.map (fun n => n.m_handler))
      ∧ FindFirstHandlerAll s = (s, (handlersOfBus s).head?.map (fun n => n.m_handler)))
    ∧ ((EnumerateHandlersId s id findFirstCallback none).visited
          = ((handlersOfId s id).take 1).map (fun n => n.m_handler)
      ∧ (EnumerateHandlersPtr s ptr findFirstCallback none).visited
          = ((handlersOfPtr s ptr).take 1).map (fun n => n.m_handler)
      ∧ (EnumerateHandlers s findFirstCallback none).visited
          = ((handlersOfBus s).take 1).map (fun n => n.m_handler))
    ∧ ((FindFirstHandler s0 id0).2 = none
      ∧ (FindFirstHandler (Connect T P less h id0 order s0) id0).2 = some h
      ∧ (FindFirstHandler (Disconnect h (Connect T P less h id0 order s0)) id0).2 = none)
    ∧ ((FindFirstHandlerAll s1).2 = none
      ∧ (FindFirstHandlerAll (Connect T P less h id0 order s1)).2 = some h
      ∧ (FindFirstHandlerAll (Disconnect h (Connect T P less h id0 order s1))).2 = none) := by
  refine ⟨⟨findFirstHandler_eq s id, ?_, findFirstHandlerAll_eq s⟩, ⟨?_, ?_, ?_⟩,
    ⟨?_, ?_, ?_⟩, ⟨?_, ?_, ?_⟩⟩
  · simp [FindFirstHandlerPtr, EnumerateHandlersPtr, enumerate_findFirstCallback]
  · simp [EnumerateHandlersId, enumerate_findFirstCallback]
  · simp [EnumerateHandlersPtr, enumerate_findFirstCallback]
  · simp [EnumerateHandlers, enumerate_findFirstCallback]
  · rw [findFirstHandler_eq, hzero]; rfl
  · rw [findFirstHandler_eq, handlersOfId_connect T P less h id0 order s0 hzero hfree]; rfl
  · rw [findFirstHandler_eq, handlersOfId_disconnect,
      handlersOfId_connect T P less h id0 order s0 hzero hfree]
    simp
  · rw [findFirstHandlerAll_eq, hall]; rfl
  · rw [findFirstHandlerAll_eq, handlersOfBus_connect T P less h id0 order s1 hall]; rfl
  · rw [findFirstHandlerAll_eq, handlersOfBus_disconnect,
      handlersOfBus_connect T P less h id0 order s1 hall]
    simp

theorem findFirstHandler_first_witness :
    (handlersOfId sampleBus 7 = [] ∧ isConnectedOnBus sampleBus 20 = false
      ∧ handlersOfBus (none : SampleState) = [])
    ∧ ((FindFirstHandler sampleBus 5 = (sampleBus, some 10)
        ∧ FindFirstHandlerPtr sampleBus (some 6) = (sampleBus, some 12)
        ∧ FindFirstHandlerAll sampleBus = (sampleBus, some 10))
      ∧ ((EnumerateHandlersId sampleBus 5 findFirstCallback none).visited = [10]
        ∧ (EnumerateHandlersPtr sampleBus (some 6) findFirstCallback none).visited = [12]
        ∧ (EnumerateHandlers sampleBus findFirstCallback none).visited = [10])
      ∧ ((FindFirstHandler sampleBus 7).2 = none
        ∧ (FindFirstHandler
            (Connect sampleTraits sampleConfig.policy sampleConfig.less 20 7 0 sampleBus) 7).2
            = some 20
        ∧ (FindFirstHandler (Disconnect 20
            (Connect sampleTraits sampleConfig.policy sampleConfig.less 20 7 0 sampleBus)) 7).2
            = none)
      ∧ ((FindFirstHandlerAll (none : SampleState)).2 = none
        ∧ (FindFirstHandlerAll
            (Connect sampleTraits sampleConfig.policy sampleConfig.less 20 7 0
              (none : SampleState))).2 = some 20
        ∧ (FindFirstHandlerAll (Disconnect 20
            (Connect sampleTraits sampleConfig.policy sampleConfig.less 20 7 0
              (none : SampleState)))).2 = none)) :=
  ⟨⟨by decide, by decide, rfl⟩,
    findFirstHandler_first sampleTraits sampleConfig.policy sampleConfig.less
      sampleBus sampleBus none 5 7 (some 6) 20 0 (by decide) (by decide) rfl⟩

/-! ### GetNumOfEventHandlers -/

theorem enumerate_countCallback (hs : List (HandlerNode H)) :
    ∀ size : Nat, enumerate countCallback hs size
      = (size + hs.length, hs.map (fun n => n.m_handler)) := by
  induction hs with
  | nil => intro size; rfl
  | cons n rest ih =>
    intro size
    simp only [enumerate, countCallback, if_true, ih, List.length_cons, List.map_cons]
    congr 1
    omega

/-- C11: `GetNumOfEventHandlers(id)` returns the number of handlers connected at the
address and leaves the bus as it was; its callback is called on every handler of the
address, once each and in order; the result is 0 on a bus without a context and for an
address without handlers. -/
theorem getNumOfEventHandlers_count [DecidableEq Id]
    (s : BusState Id H (BusMessageCall Id Fn Val)) (id : Id) :
    GetNumOfEventHandlers s id = (s, (handlersOfId s id).length)
    ∧ (EnumerateHandlersId s id countCallback 0).visited
        = (handlersOfId s id).map (fun n => n.m_handler)
    ∧ (GetNumOfEventHandlers (none : BusState Id H (BusMessageCall Id Fn Val)) id).2 = 0
    ∧ ((GetNumOfEventHandlers s id).2 = 0 ↔ handlersOfId s id = []) := by
  have h1 : GetNumOfEventHandlers s id = (s, (handlersOfId s id).length) := by
    simp [GetNumOfEventHandlers, EnumerateHandlersId, enumerate_countCallback]
  refine ⟨h1, ?_, rfl, ?_⟩
  · simp [EnumerateHandlersId, enumerate_countCallback]
  · rw [h1]
    exact List.length_eq_zero

/-! ### Queued events -/

/-- A queued event on a bus with handlers: `QueueEvent(5, f, 42)` followed by
`ExecuteQueuedEvents()` reaches the handlers 10 and 11 of address 5, in this order,
exactly as `Event(5, f, 42)` does; each handler enqueues its callable, so both leave the
callables 10 and 11 queued. -/
theorem queued_event_scenario :
    (Event sampleTraits sampleConfig sampleReactQueue 5 1 [42] sampleBus).2 = [10, 11]
    ∧ queuedMessages (Event sampleTraits sampleConfig sampleReactQueue 5 1 [42] sampleBus).1
        = [sampleCall 10, sampleCall 11]
    ∧ queuedMessages (ExecuteQueuedEvents sampleTraits
          (invokeMessage sampleTraits sampleConfig sampleReactQueue sampleBody)
          (QueueEvent sampleTraits 5 1 [42] sampleBus)).1
        = [sampleCall 10, sampleCall 11] := by
  decide

/-! ### Queued-argument validation -/

theorem validate_eq_false_iff (F : Internal.FunctionType) (allow : Bool) :
    Internal.QueueFunctionArgumentValidator.Validate F allow = false
      ↔ allow = false ∧ F.is_bind_expression = false
        ∧ ∃ t ∈ F.args, t.ref = Internal.RefKind.lvalueRef ∧ t.isConst = false := by
  cases allow <;> cases hb : F.is_bind_expression <;>
    simp [Internal.QueueFunctionArgumentValidator.Validate,
      Internal.ArgumentValidatorHelper.Validate, Internal.is_non_const_lvalue_reference, hb]

/-- C14: with `EnableEventQueue = false` the queue base of the bus is the empty
`EBusNullQueue`, keyed or not, so the bus interface has none of the queue operations;
with `EnableEventQueue = true` a keyed bus has `EBusEventQueue` with all ten
operations and a bus addressed by `NullBusId` has `EBusBroadcastQueue`, with every
operation except `QueueEvent` and `QueueEventReverse`. The base depends on the
configuration only. -/
theorem queueBase_members (T : EBusImplTraits) (busIdIsNullBusId : Bool) (m : QueueMember) :
    (T.EnableEventQueue = false →
        EBusImpl.queueBase T busIdIsNullBusId = QueueBase.EBusNullQueue
        ∧ m ∉ (EBusImpl.queueBase T busIdIsNullBusId).members)
    ∧ (T.EnableEventQueue = true →
        EBusImpl.queueBase T false = QueueBase.EBusEventQueue
        ∧ m ∈ (EBusImpl.queueBase T false).members
        ∧ EBusImpl.queueBase T true = QueueBase.EBusBroadcastQueue
        ∧ (m ∈ (EBusImpl.queueBase T true).members
            ↔ m ≠ QueueMember.QueueEvent ∧ m ≠ QueueMember.QueueEventReverse)) := by
  constructor
  · intro h
    cases busIdIsNullBusId <;> simp [EBusImpl.queueBase, h, QueueBase.members]
  · intro h
    refine ⟨by simp [EBusImpl.queueBase, h], ?_, by simp [EBusImpl.queueBase, h], ?_⟩
    · cases m <;> simp [EBusImpl.queueBase, h, QueueBase.members]
    · cases m <;> simp [EBusImpl.queueBase, h, QueueBase.members]

theorem queueBase_members_witness :
    (sampleTraitsNoQueue.EnableEventQueue = false
      ∧ EBusImpl.queueBase sampleTraitsNoQueue false = QueueBase.EBusNullQueue
      ∧ QueueMember.QueueFunction ∉ (EBusImpl.queueBase sampleTraitsNoQueue false).members)
    ∧ (sampleTraits.EnableEventQueue = true
      ∧ EBusImpl.queueBase sampleTraits false = QueueBase.EBusEventQueue
      ∧ QueueMember.QueueEvent ∈ (EBusImpl.queueBase sampleTraits false).members
      ∧ EBusImpl.queueBase sampleTraits true = QueueBase.EBusBroadcastQueue
      ∧ (QueueMember.QueueEvent ∈ (EBusImpl.queueBase sampleTraits true).members
          ↔ QueueMember.QueueEvent ≠ QueueMember.QueueEvent
            ∧ QueueMember.QueueEvent ≠ QueueMember.QueueEventReverse)) :=
  ⟨⟨rfl, (queueBase_members sampleTraitsNoQueue false QueueMember.QueueFunction).1 rfl⟩,
    ⟨rfl, (queueBase_members sampleTraits false QueueMember.QueueEvent).2 rfl⟩⟩

/-! ### Dispatch -/

theorem findAddress_setAddress [DecidableEq Id] (buses : List (Id × List (HandlerNode H)))
    (id id' : Id) (hs : List (HandlerNode H)) :
    findAddress (setAddress buses id hs) id'
      = if id = id' then some hs else findAddress buses id' := by
  induction buses with
  | nil => simp [setAddress, findAddress]
  | cons a rest ih =>
    obtain ⟨k, old⟩ := a
    by_cases hk : k = id
    · subst hk
      by_cases hk' : k = id' <;> simp [setAddress, findAddress, hk']
    · by_cases hk' : k = id'
      · subst hk'
        have : ¬ id = k := fun h => hk h.symm
        simp [setAddress, findAddress, hk, this]
      · simp [setAddress, findAddress, hk, hk', ih]

theorem findAddress_append [DecidableEq Id] (l1 l2 : List (Id × List (HandlerNode H)))
    (id : Id) :
    findAddress (l1 ++ l2) id
      = match findAddress l1 id with
        | some hs => some hs
        | none => findAddress l2 id := by
  induction l1 with
  | nil => rfl
  | cons a rest ih =>
    obtain ⟨k, old⟩ := a
    by_cases hk : k = id
    · simp [findAddress, hk]
    · simpa [findAddress, hk] using ih

theorem handlersAt_bindAddress [DecidableEq Id] (buses : List (Id × List (HandlerNode H)))
    (id id' : Id) : handlersAt (bindAddress buses id') id = handlersAt buses id := by
  unfold bindAddress
  cases hf : findAddress buses id' with
  | some hs => rfl
  | none =>
    simp only [handlersAt, findAddress_append]
    cases hf' : findAddress buses id with
    | some hs => rfl
    | none =>
      by_cases hk : id' = id <;> simp [findAddress, hk]

theorem mem_insertOrdered (less : HandlerNode H → HandlerNode H → Bool)
    (x n : HandlerNode H) (hs : List (HandlerNode H)) :
    n ∈ insertOrdered less x hs ↔ n = x ∨ n ∈ hs := by
  induction hs with
  | nil => simp [insertOrdered]
  | cons e rest ih =>
    simp only [insertOrdered]
    split
    · simp
    · simp only [List.mem_cons, ih]
      tauto

theorem mem_insertHandler (P : EBusHandlerPolicy)
    (less : HandlerNode H → HandlerNode H → Bool) (x n : HandlerNode H)
    (hs : List (HandlerNode H)) (hn : n ∈ hs) : n ∈ insertHandler P less x hs := by
  cases P with
  | Single =>
    simp only [insertHandler]
    split
    · rename_i hemp
      rw [List.isEmpty_iff] at hemp
      rw [hemp] at hn
      exact absurd hn (List.not_mem_nil _)
    · exact hn
  | Multiple => simp [insertHandler, hn]
  | MultipleAndOrdered =>
    simp only [insertHandler]
    exact (mem_insertOrdered less x n hs).mpr (Or.inr hn)

theorem isLiveAt_some_iff [DecidableEq Id] [DecidableEq H]
    (context : Context Id H (BusMessageCall Id Fn Val)) (id : Id) (h : H) :
    isLiveAt (some context) id h = true
      ↔ ∃ n ∈ handlersAt context.m_buses id, n.m_handler = h := by
  simp [isLiveAt, handlersOfId]

theorem isLiveAt_none [DecidableEq Id] [DecidableEq H] (id : Id) (h : H) :
    isLiveAt (none : BusState Id H (BusMessageCall Id Fn Val)) id h = false := rfl

theorem isLiveAt_connect [DecidableEq Id] [DecidableEq H] (T : EBusImplTraits)
    (P : EBusHandlerPolicy) (less : HandlerNode H → HandlerNode H → Bool)
    (h' : H) (id' : Id) (order : Int)
    (context : Context Id H (BusMessageCall Id Fn Val)) (id : Id) (h : H)
    (hl : isLiveAt (some context) id h = true) :
    isLiveAt (Connect T P less h' id' order (some context)) id h = true := by
  simp only [Connect, GetOrCreateContext]
  split
  · exact hl
  · rw [isLiveAt_some_iff] at hl ⊢
    obtain ⟨n, hn, hh⟩ := hl
    refine ⟨n, ?_, hh⟩
    simp only [handlersAt, findAddress_setAddress]
    by_cases hk : id' = id
    · subst hk
      simp only [if_true, Option.getD_some]
      exact mem_insertHandler P less _ n _ hn
    · simp only [hk, if_false]
      exact hn

theorem isLiveAt_disconnect [DecidableEq Id] [DecidableEq H] (h' : H)
    (context : Context Id H (BusMessageCall Id Fn Val)) (id : Id) (h : H)
    (hne : h' ≠ h) (hl : isLiveAt (some context) id h = true) :
    isLiveAt (Disconnect h' (some context)) id h = true := by
  rw [isLiveAt_some_iff] at hl
  obtain ⟨n, hn, hh⟩ := hl
  simp only [isLiveAt, handlersOfId_disconnect, List.any_eq_true, List.mem_filter]
  refine ⟨n, ⟨?_, ?_⟩, by simp [hh]⟩
  · simpa [handlersOfId] using hn
  · subst hh
    simp
    exact fun h => hne h.symm

/-- A call other than `Disconnect(h)` leaves a connected handler `h` connected at its
address. -/
theorem isLiveAt_apply [DecidableEq Id] [DecidableEq H] (T : EBusImplTraits)
    (C : HandlerConfig H) (op : CallOp Id H Fn Val)
    (s : BusState Id H (BusMessageCall Id Fn Val)) (id : Id) (h : H)
    (hop : op ≠ CallOp.Disconnect h) (hl : isLiveAt s id h = true) :
    isLiveAt (op.apply T C s) id h = true := by
  cases s with
  | none => rw [isLiveAt_none] at hl; exact absurd hl (by decide)
  | some context =>
    have hq : ∀ (func : Function Fn) (args : List (Arg Id Fn Val)),
        isLiveAt (QueueFunction T func args (some context)) id h = true := by
      intro func args
      simp only [QueueFunction]
      split <;> exact hl
    cases op with
    | Disconnect h' =>
      have hne : h' ≠ h := fun e => hop (by rw [e])
      exact isLiveAt_disconnect h' context id h hne hl
    | Connect h' id' order => exact isLiveAt_connect T C.policy C.less h' id' order context id h hl
    | Bind id' =>
      rw [isLiveAt_some_iff] at hl
      simp only [CallOp.apply, Bind, GetOrCreateContext]
      rw [isLiveAt_some_iff]
      simpa [handlersAt_bindAddress] using hl
    | QueueFunction func args => exact hq func args
    | QueueBroadcast func args => exact hq _ _
    | QueueBroadcastReverse func args => exact hq _ _
    | QueueEvent id' func args => exact hq _ _
    | QueueEventPtr ptr func args => exact hq _ _
    | QueueEventReverse id' func args => exact hq _ _
    | QueueEventReversePtr ptr func args => exact hq _ _
    | FindFirstHandler id' => exact hl
    | FindFirstHandlerPtr ptr => exact hl
    | FindFirstHandlerAll => exact hl
    | GetNumOfEventHandlers id' => exact hl
    | AllowFunctionQueuing isAllowed => exact hl
    | IsFunctionQueuing => exact hl
    | ClearQueuedEvents => exact hl
    | QueuedEventCount => exact hl

theorem isLiveAt_applyCalls [DecidableEq Id] [DecidableEq H] (T : EBusImplTraits)
    (C : HandlerConfig H) (ops : List (CallOp Id H Fn Val)) (id : Id) (h : H) :
    ∀ (s : BusState Id H (BusMessageCall Id Fn Val)),
      CallOp.Disconnect h ∉ ops → isLiveAt s id h = true →
      isLiveAt (applyCalls T C ops s) id h = true := by
  induction ops with
  | nil => intro s _ hl; exact hl
  | cons op rest ih =>
    intro s hno hl
    have h1 : op ≠ CallOp.Disconnect h := fun e => hno (by simp [e])
    have h2 : CallOp.Disconnect h ∉ rest := fun e => hno (List.mem_cons_of_mem _ e)
    exact ih (op.apply T C s) h2 (isLiveAt_apply T C op s id h h1 hl)

/-- When no callback disconnects a handler, a pass visits all the connections it began
with, in their order. -/
theorem dispatchNodes_all [DecidableEq Id] [DecidableEq H] (T : EBusImplTraits)
    (C : HandlerConfig H) (react : H → List (CallOp Id H Fn Val))
    (hreact : ∀ h' h, CallOp.Disconnect h ∉ react h')
    (nodes : List (Id × HandlerNode H)) :
    ∀ (s : BusState Id H (BusMessageCall Id Fn Val)),
      (∀ a ∈ nodes, isLiveAt s a.1 a.2.m_handler = true) →
      (dispatchNodes T C react nodes s).2 = nodes.map (fun a => a.2.m_handler) := by
  induction nodes with
  | nil => intro s _; rfl
  | cons a rest ih =>
    intro s hl
    have ha := hl a (by simp)
    simp only [dispatchNodes, ha, if_true, List.map_cons]
    congr 1
    apply ih
    intro b hb
    exact isLiveAt_applyCalls T C _ b.1 b.2.m_handler s (hreact _ _)
      (hl b (List.mem_cons_of_mem _ hb))

/-! ### Ordered handlers -/

theorem insertOrdered_pairwise (less : HandlerNode H → HandlerNode H → Bool)
    (hasym : ∀ a b, less a b = true → less b a = false)
    (htrans : ∀ a b c, less a b = true → less b c = true → less a c = true)
    (x : HandlerNode H) (hs : List (HandlerNode H))
    (hsorted : hs.Pairwise (fun a b => less b a = false)) :
    (insertOrdered less x hs).Pairwise (fun a b => less b a = false) := by
  induction hs with
  | nil => simp [insertOrdered]
  | cons e rest ih =>
    rw [List.pairwise_cons] at hsorted
    obtain ⟨he, hrest⟩ := hsorted
    simp only [insertOrdered]
    split
    · rename_i hlt
      rw [List.pairwise_cons]
      refine ⟨?_, List.pairwise_cons.mpr ⟨he, hrest⟩⟩
      intro b hb
      rcases List.mem_cons.mp hb with hbe | hbr
      · subst hbe; exact hasym _ _ hlt
      · cases hbx : less b x with
        | false => rfl
        | true =>
          have := htrans b x e hbx hlt
          rw [he b hbr] at this
          exact absurd this (by decide)
    · rename_i hlt
      rw [List.pairwise_cons]
      refine ⟨?_, ih hrest⟩
      intro b hb
      rcases (mem_insertOrdered less x b rest).mp hb with hbx | hbr
      · subst hbx; simpa using hlt
      · exact he b hbr

theorem insertOrdered_perm (less : HandlerNode H → HandlerNode H → Bool)
    (x : HandlerNode H) (hs : List (HandlerNode H)) :
    (insertOrdered less x hs).Perm (x :: hs) := by
  induction hs with
  | nil => exact List.Perm.refl _
  | cons e rest ih =>
    simp only [insertOrdered]
    split
    · exact List.Perm.refl _
    · exact ((List.Perm.cons e ih).trans (List.Perm.swap x e rest))

theorem handlersOfId_connect_cases [DecidableEq Id] [DecidableEq H] (T : EBusImplTraits)
    (P : EBusHandlerPolicy) (less : HandlerNode H → HandlerNode H → Bool)
    (h : H) (id : Id) (order : Int) (s : BusState Id H (BusMessageCall Id Fn Val)) :
    handlersOfId (Connect T P less h id order s) id = handlersOfId s id
    ∨ handlersOfId (Connect T P less h id order s) id
        = insertHandler P less ⟨h, order⟩ (handlersOfId s id) := by
  cases s with
  | none =>
    right
    simp [Connect, GetOrCreateContext, newContext, isConnected, handlersOfId,
      handlersAt_setAddress, handlersAt, findAddress]
  | some context =>
    simp only [Connect, GetOrCreateContext]
    split
    · left; rfl
    · right; simp [handlersOfId, handlersAt_setAddress]

theorem connectAll_pairwise [DecidableEq Id] [DecidableEq H] (T : EBusImplTraits)
    (less : HandlerNode H → HandlerNode H → Bool)
    (hasym : ∀ a b, less a b = true → less b a = false)
    (htrans : ∀ a b c, less a b = true → less b c = true → less a c = true)
    (id : Id) (conns : List (H × Int)) :
    ∀ (s : BusState Id H (BusMessageCall Id Fn Val)),
      (handlersOfId s id).Pairwise (fun a b => less b a = false) →
      (handlersOfId (connectAll T EBusHandlerPolicy.MultipleAndOrdered less id conns s) id).Pairwise
        (fun a b => less b a = false) := by
  induction conns with
  | nil => intro s hs; exact hs
  | cons c rest ih =>
    intro s hs
    simp only [connectAll, List.foldl_cons]
    apply ih
    rcases handlersOfId_connect_cases T EBusHandlerPolicy.MultipleAndOrdered less c.1 id c.2 s
      with h | h
    · rw [h]; exact hs
    · rw [h]; exact insertOrdered_pairwise less hasym htrans _ _ hs

theorem connectAll_single_perm [DecidableEq Id] [DecidableEq H] (T : EBusImplTraits)
    (less : HandlerNode H → HandlerNode H → Bool) (id : Id)
    (q : EBusQueuePolicy (BusMessageCall Id Fn Val)) (conns : List (H × Int)) :
    ∀ (hs : List (HandlerNode H)),
      (∀ c ∈ conns, ∀ n ∈ hs, n.m_handler ≠ c.1) → (conns.map Prod.fst).Nodup →
      (handlersOfId (connectAll T EBusHandlerPolicy.MultipleAndOrdered less id conns
          (some { m_buses := [(id, hs)], m_queue := q })) id).Perm
        (conns.map (fun c => (⟨c.1, c.2⟩ : HandlerNode H)) ++ hs) := by
  induction conns with
  | nil => intro hs _ _; simp [connectAll, handlersOfId, handlersAt, findAddress]
  | cons c rest ih =>
    intro hs hfree hnodup
    rw [List.map_cons, List.nodup_cons] at hnodup
    obtain ⟨hc, hrest⟩ := hnodup
    have hnot : isConnected [(id, hs)] c.1 = false := by
      simp only [isConnected, List.any_cons, List.any_nil, Bool.or_false, List.any_eq_false]
      intro n hn
      simpa using hfree c (by simp) n hn
    have hstep : Connect T EBusHandlerPolicy.MultipleAndOrdered less c.1 id c.2
        (some { m_buses := [(id, hs)], m_queue := q })
        = some { m_buses := [(id, insertOrdered less ⟨c.1, c.2⟩ hs)], m_queue := q } := by
      simp [Connect, GetOrCreateContext, hnot, setAddress, handlersAt, findAddress,
        insertHandler]
    simp only [connectAll, List.foldl_cons, hstep]
    have hfree' : ∀ c' ∈ rest, ∀ n ∈ insertOrdered less ⟨c.1, c.2⟩ hs, n.m_handler ≠ c'.1 := by
      intro c' hc' n hn
      rcases (mem_insertOrdered less _ n hs).mp hn with h | h
      · subst h
        intro e
        exact hc (List.mem_map.mpr ⟨c', hc', e.symm⟩)
      · exact hfree c' (List.mem_cons_of_mem _ hc') n h
    have h1 := ih (insertOrdered less ⟨c.1, c.2⟩ hs) hfree' hrest
    simp only [connectAll] at h1
    refine h1.trans ?_
    simp only [List.map_cons, List.cons_append]
    exact ((List.Perm.append_left _ (insertOrdered_perm less _ hs)).trans
      List.perm_middle)

theorem connectAll_fresh_perm [DecidableEq Id] [DecidableEq H] (T : EBusImplTraits)
    (less : HandlerNode H → HandlerNode H → Bool) (id : Id) (conns : List (H × Int))
    (hnodup : (conns.map Prod.fst).Nodup) :
    (handlersOfId (connectAll T EBusHandlerPolicy.MultipleAndOrdered less id conns
        (none : BusState Id H (BusMessageCall Id Fn Val))) id).Perm
      (conns.map (fun c => (⟨c.1, c.2⟩ : HandlerNode H))) := by
  cases conns with
  | nil => simp [connectAll, handlersOfId]
  | cons c rest =>
    rw [List.map_cons, List.nodup_cons] at hnodup
    obtain ⟨hc, hrest⟩ := hnodup
    have hstep : Connect T EBusHandlerPolicy.MultipleAndOrdered less c.1 id c.2
        (none : BusState Id H (BusMessageCall Id Fn Val))
        = some { m_buses := [(id, [⟨c.1, c.2⟩])],
                 m_queue := (newContext T : Context Id H (BusMessageCall Id Fn Val)).m_queue } := by
      simp [Connect, GetOrCreateContext, newContext, isConnected, setAddress, handlersAt,
        findAddress, insertHandler, insertOrdered]
    have hfree : ∀ c' ∈ rest, ∀ n ∈ [(⟨c.1, c.2⟩ : HandlerNode H)], n.m_handler ≠ c'.1 := by
      intro c' hc' n hn
      rw [List.mem_singleton] at hn
      subst hn
      intro e
      exact hc (List.mem_map.mpr ⟨c', hc', e.symm⟩)
    have h1 := connectAll_single_perm T less id
      (newContext T : Context Id H (BusMessageCall Id Fn Val)).m_queue rest _ hfree hrest
    simp only [connectAll, List.foldl_cons, hstep] at h1 ⊢
    refine h1.trans ?_
    simp only [List.map_cons]
    exact List.perm_append_singleton _ _

theorem handlersOfId_getOrCreateContext [DecidableEq Id] (T : EBusImplTraits) (arg : Bool)
    (s : BusState Id H (BusMessageCall Id Fn Val)) (id : Id) :
    handlersAt (GetOrCreateContext T arg s).m_buses id = handlersOfId s id := by
  cases s <;> rfl

theorem nodesOfId_live [DecidableEq Id] [DecidableEq H]
    (context : Context Id H (BusMessageCall Id Fn Val)) (id : Id) :
    ∀ a ∈ nodesOfId context id, isLiveAt (some context) a.1 a.2.m_handler = true := by
  intro a ha
  simp only [nodesOfId, List.mem_map] at ha
  obtain ⟨n, hn, rfl⟩ := ha
  exact (isLiveAt_some_iff context id n.m_handler).mpr ⟨n, hn, rfl⟩

/-- When no callback disconnects a handler, `Event` visits all handlers of the address
front to back and `EventReverse` visits them back to front. -/
theorem event_visits_all [DecidableEq Id] [DecidableEq H] (T : EBusImplTraits)
    (C : HandlerConfig H) (react : Fn → List Val → H → List (CallOp Id H Fn Val))
    (id : Id) (f : Fn) (args : List Val) (s : BusState Id H (BusMessageCall Id Fn Val))
    (hreact : ∀ h' h, CallOp.Disconnect h ∉ react f args h') :
    (Event T C react id f args s).2 = (handlersOfId s id).map (fun n => n.m_handler)
    ∧ (EventReverse T C react id f args s).2
        = ((handlersOfId s id).map (fun n => n.m_handler)).reverse := by
  constructor
  · simp only [Event]
    rw [dispatchNodes_all T C (react f args) hreact _ _ (nodesOfId_live _ id)]
    simp [nodesOfId, handlersOfId_getOrCreateContext]
  · simp only [EventReverse]
    rw [dispatchNodes_all T C (react f args) hreact _ _
      (fun a ha => nodesOfId_live _ id a (List.mem_reverse.mp ha))]
    simp [nodesOfId, handlersOfId_getOrCreateContext, List.map_reverse]

/-- C15: on an address with ordered multiple handlers, whatever the sequence of
connections, the handlers are held in non-decreasing order of the configured
comparator (no handler is preceded by one that the comparator puts after it); forward
dispatch visits all of them in that order and reverse dispatch in exactly the opposite
order, as long as no callback disconnects a handler during the pass. On a fresh bus
the handlers held are exactly the handlers connected. The comparator is a strict order
(asymmetric and transitive). -/
theorem ordered_dispatch_order [DecidableEq Id] [DecidableEq H] (T : EBusImplTraits)
    (less : HandlerNode H → HandlerNode H → Bool)
    (react : Fn → List Val → H → List (CallOp Id H Fn Val))
    (id : Id) (f : Fn) (args : List Val) (conns : List (H × Int))
    (s : BusState Id H (BusMessageCall Id Fn Val))
    (hasym : ∀ a b, less a b = true → less b a = false)
    (htrans : ∀ a b c, less a b = true → less b c = true → less a c = true)
    (hreact : ∀ h' h, CallOp.Disconnect h ∉ react f args h')
    (hsorted : (handlersOfId s id).Pairwise (fun a b => less b a = false))
    (hnodup : (conns.map Prod.fst).Nodup) :
    (handlersOfId (connectAll T EBusHandlerPolicy.MultipleAndOrdered less id conns s) id).Pairwise
        (fun a b => less b a = false)
    ∧ (Event T ⟨EBusHandlerPolicy.MultipleAndOrdered, less⟩ react id f args
          (connectAll T EBusHandlerPolicy.MultipleAndOrdered less id conns s)).2
        = (handlersOfId (connectAll T EBusHandlerPolicy.MultipleAndOrdered less id conns s)
            id).map (fun n => n.m_handler)
    ∧ (EventReverse T ⟨EBusHandlerPolicy.MultipleAndOrdered, less⟩ react id f args
          (connectAll T EBusHandlerPolicy.MultipleAndOrdered less id conns s)).2
        = (Event T ⟨EBusHandlerPolicy.MultipleAndOrdered, less⟩ react id f args
            (connectAll T EBusHandlerPolicy.MultipleAndOrdered less id conns s)).2.reverse
    ∧ (handlersOfId (connectAll T EBusHandlerPolicy.MultipleAndOrdered less id conns
          (none : BusState Id H (BusMessageCall Id Fn Val))) id).Perm
        (conns.map (fun c => (⟨c.1, c.2⟩ : HandlerNode H))) := by
  have hev := event_visits_all T ⟨EBusHandlerPolicy.MultipleAndOrdered, less⟩ react id f args
    (connectAll T EBusHandlerPolicy.MultipleAndOrdered less id conns s) hreact
  refine ⟨connectAll_pairwise T less hasym htrans id conns s hsorted, hev.1, ?_,
    connectAll_fresh_perm T less id conns hnodup⟩
  rw [hev.2, hev.1]

theorem ordered_dispatch_order_witness :
    ((∀ a b, sampleOrderedConfig.less a b = true → sampleOrderedConfig.less b a = false)
      ∧ (∀ a b c, sampleOrderedConfig.less a b = true → sampleOrderedConfig.less b c = true →
          sampleOrderedConfig.less a c = true)
      ∧ (∀ h' h, CallOp.Disconnect h ∉ sampleReactNone 1 [] h')
      ∧ (handlersOfId (none : SampleState) 5).Pairwise
          (fun a b => sampleOrderedConfig.less b a = false)
      ∧ (([(30, 3), (10, 1), (20, 2)] : List (Nat × Int)).map Prod.fst).Nodup)
    ∧ ((handlersOfId sampleOrderedBus 5).Pairwise
          (fun a b => sampleOrderedConfig.less b a = false)
      ∧ (Event sampleTraits ⟨EBusHandlerPolicy.MultipleAndOrdered, sampleOrderedConfig.less⟩
            sampleReactNone 5 1 [] sampleOrderedBus).2
          = (handlersOfId sampleOrderedBus 5).map (fun n => n.m_handler)
      ∧ (EventReverse sampleTraits
            ⟨EBusHandlerPolicy.MultipleAndOrdered, sampleOrderedConfig.less⟩
            sampleReactNone 5 1 [] sampleOrderedBus).2
          = (Event sampleTraits ⟨EBusHandlerPolicy.MultipleAndOrdered, sampleOrderedConfig.less⟩
              sampleReactNone 5 1 [] sampleOrderedBus).2.reverse
      ∧ (handlersOfId sampleOrderedBus 5).Perm
          (([(30, 3), (10, 1), (20, 2)] : List (Nat × Int)).map
            (fun c => (⟨c.1, c.2⟩ : HandlerNode Nat)))) :=
  have hasym : ∀ a b, sampleOrderedConfig.less a b = true →
      sampleOrderedConfig.less b a = false := by
    intro a b h
    simp only [sampleOrderedConfig, decide_eq_true_eq, decide_eq_false_iff_not] at h ⊢
    omega
  have htrans : ∀ a b c, sampleOrderedConfig.less a b = true →
      sampleOrderedConfig.less b c = true → sampleOrderedConfig.less a c = true := by
    intro a b c h1 h2
    simp only [sampleOrderedConfig, decide_eq_true_eq] at h1 h2 ⊢
    omega
  have hreact : ∀ h' h, CallOp.Disconnect h ∉ sampleReactNone 1 [] h' := by
    intro h' h hmem
    simp [sampleReactNone] at hmem
  have hsorted : (handlersOfId (none : SampleState) 5).Pairwise
      (fun a b => sampleOrderedConfig.less b a = false) := List.Pairwise.nil
  have hnodup : (([(30, 3), (10, 1), (20, 2)] : List (Nat × Int)).map Prod.fst).Nodup := by
    decide
  ⟨⟨hasym, htrans, hreact, hsorted, hnodup⟩,
    ordered_dispatch_order sampleTraits sampleOrderedConfig.less sampleReactNone 5 1 []
      [(30, 3), (10, 1), (20, 2)] none hasym htrans hreact hsorted hnodup⟩

/-- The example of the spec: handlers connected with the order keys 3, 1, 2 are visited
in the order 1, 2, 3 by forward dispatch and 3, 2, 1 by reverse dispatch. -/
theorem ordered_dispatch_scenario :
    (handlersOfId sampleOrderedBus 5).map (fun n => n.m_order) = [1, 2, 3]
    ∧ (Event sampleTraits sampleOrderedConfig sampleReactNone 5 1 [] sampleOrderedBus).2
        = [10, 20, 30]
    ∧ (EventReverse sampleTraits sampleOrderedConfig sampleReactNone 5 1 [] sampleOrderedBus).2
        = [30, 20, 10] := by
  decide

/-! ### Reentrant disconnect and connect -/

/-- The scenario of the spec: A, B and C are connected in this order to an address
with unordered multiple handlers; A's callback disconnects B. The dispatch visits A and
C and afterwards the address holds A and C. -/
theorem reentrant_disconnect_scenario :
    (connectAll sampleTraits EBusHandlerPolicy.Multiple sampleConfig.less 5
        [(1, 0), (2, 0), (3, 0)] (none : SampleState)) = some sampleContextABC
    ∧ (Event sampleTraits sampleConfig sampleReactDisconnect 5 7 []
        (some sampleContextABC)).2 = [1, 3]
    ∧ (handlersOfId (Event sampleTraits sampleConfig sampleReactDisconnect 5 7 []
        (some sampleContextABC)).1 5).map (fun n => n.m_handler) = [1, 3] := by
  decide

/-- The scenario of the spec on the bus holding A, B and C: A's callback connects D.
The pass visits A, B, C and not D; the next pass visits A, B, C and D. -/
theorem reentrant_connect_scenario :
    (Event sampleTraits sampleConfig sampleReactConnect 5 7 [] (some sampleContextABC)).2
        = [1, 2, 3]
    ∧ (Event sampleTraits sampleConfig sampleReactConnect 5 7 []
        (Event sampleTraits sampleConfig sampleReactConnect 5 7 []
          (some sampleContextABC)).1).2 = [1, 2, 3, 4] := by
  decide

/-! ### Lock selection -/

/-- C22: the lock type that guards the event queue is the configured
`EventQueueMutexType` when that is not `NullMutex`, and the bus's own `MutexType` when
it is; so the queue lock is `NullMutex` exactly when both the configured queue mutex
and the bus mutex are `NullMutex`. -/
theorem eventQueueMutexType_selection (Traits : MutexTraits) :
    (Traits.EventQueueMutexType ≠ MutexKind.NullMutex →
        EBusImplTraits.EventQueueMutexType Traits = Traits.EventQueueMutexType)
    ∧ (Traits.EventQueueMutexType = MutexKind.NullMutex →
        EBusImplTraits.EventQueueMutexType Traits = Traits.MutexType)
    ∧ (EBusImplTraits.EventQueueMutexType Traits = MutexKind.NullMutex
        ↔ Traits.EventQueueMutexType = MutexKind.NullMutex
          ∧ Traits.MutexType = MutexKind.NullMutex) := by
  refine ⟨?_, ?_, ?_⟩
  · intro h
    simp [EBusImplTraits.EventQueueMutexType, h]
  · intro h
    simp [EBusImplTraits.EventQueueMutexType, EBusImplTraits.MutexType, h]
  · by_cases h : Traits.EventQueueMutexType = MutexKind.NullMutex
    · simp [EBusImplTraits.EventQueueMutexType, EBusImplTraits.MutexType, h]
    · simp [EBusImplTraits.EventQueueMutexType, h]

theorem eventQueueMutexType_selection_witness :
    ((⟨MutexKind.lock 1, MutexKind.lock 2⟩ : MutexTraits).EventQueueMutexType
          ≠ MutexKind.NullMutex
      ∧ EBusImplTraits.EventQueueMutexType ⟨MutexKind.lock 1, MutexKind.lock 2⟩
          = MutexKind.lock 2)
    ∧ ((⟨MutexKind.lock 1, MutexKind.NullMutex⟩ : MutexTraits).EventQueueMutexType
          = MutexKind.NullMutex
      ∧ EBusImplTraits.EventQueueMutexType ⟨MutexKind.lock 1, MutexKind.NullMutex⟩
          = MutexKind.lock 1) :=
  ⟨⟨by decide, (eventQueueMutexType_selection ⟨MutexKind.lock 1, MutexKind.lock 2⟩).1
      (by decide)⟩,
    ⟨rfl, (eventQueueMutexType_selection ⟨MutexKind.lock 1, MutexKind.NullMutex⟩).2.1 rfl⟩⟩

/-! ### FindFirstHandler and GetNumOfEventHandlers -/

/-- C23: for every bus state and address id, `FindFirstHandler(id)` returns null
exactly when `GetNumOfEventHandlers(id)` returns 0; both walk the handlers of the same
address, and a connected handler is never the null pointer. -/
theorem findFirstHandler_null_iff_count_zero [DecidableEq Id]
    (s : BusState Id H (BusMessageCall Id Fn Val)) (id : Id) :
    (FindFirstHandler s id).2 = none ↔ (GetNumOfEventHandlers s id).2 = 0 := by
  rw [findFirstHandler_eq]
  simp only [GetNumOfEventHandlers, EnumerateHandlersId, enumerate_countCallback]
  cases handlersOfId s id with
  | nil => simp
  | cons n rest => simp

/-! ### QueueFunction is not validated -/

/-- C24: on a bus with an event queue and `EnableQueuedReferences = false`, for an
event function or callable type `F` that is not a bind expression and has a non-const
lvalue reference parameter, the event forms are rejected at build time while a direct
`QueueFunction` call is accepted, and on an active queue the call is queued. -/
theorem queueFunction_not_validated (T : EBusImplTraits) (F : Internal.FunctionType)
    (func : Function Fn) (args : List (Arg Id Fn Val))
    (s : BusState Id H (BusMessageCall Id Fn Val))
    (hqueue : T.EnableEventQueue = true) (href : T.EnableQueuedReferences = false)
    (hbind : F.is_bind_expression = false)
    (hparam : ∃ t ∈ F.args, t.ref = Internal.RefKind.lvalueRef ∧ t.isConst = false)
    (hactive : (IsFunctionQueuing T s).2 = true) :
    queuedEventAccepted T F = false
    ∧ queueFunctionAccepted T F = true
    ∧ queuedMessages (QueueFunction T func args s) = queuedMessages s ++ [⟨func, args⟩] := by
  refine ⟨(validate_eq_false_iff F T.EnableQueuedReferences).mpr ⟨href, hbind, hparam⟩,
    hqueue, ?_⟩
  cases s with
  | none =>
    rw [isFunctionQueuing_none] at hactive
    rw [queueFunction_none,
      queueFunction_some_active T func args _ (by simpa [newContext] using hactive)]
    rfl
  | some context =>
    rw [isFunctionQueuing_some] at hactive
    rw [queueFunction_some_active T func args context hactive]
    rfl

theorem queueFunction_not_validated_witness :
    (sampleTraits.EnableEventQueue = true ∧ sampleTraits.EnableQueuedReferences = false
      ∧ sampleFunctionMutableRef.is_bind_expression = false
      ∧ (∃ t ∈ sampleFunctionMutableRef.args,
          t.ref = Internal.RefKind.lvalueRef ∧ t.isConst = false)
      ∧ (IsFunctionQueuing sampleTraits (some (sampleContext true []) : SampleState)).2 = true)
    ∧ (queuedEventAccepted sampleTraits sampleFunctionMutableRef = false
      ∧ queueFunctionAccepted sampleTraits sampleFunctionMutableRef = true
      ∧ queuedMessages (QueueFunction sampleTraits (Function.user 1) [Arg.val 42]
          (some (sampleContext true []) : SampleState))
        = queuedMessages (some (sampleContext true []) : SampleState)
          ++ [⟨Function.user 1, [Arg.val 42]⟩]) :=
  ⟨⟨rfl, rfl, rfl, by decide, rfl⟩,
    queueFunction_not_validated sampleTraits sampleFunctionMutableRef (Function.user 1)
      [Arg.val 42] (some (sampleContext true [])) rfl rfl rfl (by decide) rfl⟩

end Theorems













end BusInternal

end AZ

namespace AzFramework

/-! ## Theorems: input channel notification handlers -/

/-- C18: for two handlers `a` and `b`, `a.Compare(b)` is true exactly when
`a.GetPriority() > b.GetPriority()`; so a handler list ordered by `Compare`, where no
handler is preceded by one it compares before, has non-increasing priorities. A
handler that does not override `GetPriority` has priority 0, and of two handlers of
equal priority neither compares before the other. -/
theorem compare_orders_by_priority (a b : InputChannelEventNotifications)
    (l : List InputChannelEventNotifications) :
    (a.Compare b = true ↔ a.GetPriority > b.GetPriority)
    ∧ (l.Pairwise (fun x y => y.Compare x = false) →
        (l.map (fun x => x.GetPriority)).Pairwise (fun p q => p ≥ q))
    ∧ InputChannelEventNotifications.GetPriority ⟨none⟩ = 0
    ∧ (a.GetPriority = b.GetPriority → a.Compare b = false ∧ b.Compare a = false) := by
  refine ⟨by simp [InputChannelEventNotifications.Compare], ?_, rfl, ?_⟩
  · intro hl
    rw [List.pairwise_map]
    refine hl.imp ?_
    intro x y hxy
    simp only [InputChannelEventNotifications.Compare, decide_eq_false_iff_not] at hxy
    omega
  · intro h
    simp [InputChannelEventNotifications.Compare, h]

theorem compare_orders_by_priority_witness :
    (([⟨some 5⟩, ⟨none⟩, ⟨none⟩, ⟨some (-3)⟩] : List InputChannelEventNotifications).Pairwise
        (fun x y => y.Compare x = false)
      ∧ InputChannelEventNotifications.GetPriority ⟨none⟩
          = InputChannelEventNotifications.GetPriority ⟨some 0⟩)
    ∧ ((([⟨some 5⟩, ⟨none⟩, ⟨none⟩, ⟨some (-3)⟩] : List InputChannelEventNotifications).map
          (fun x => x.GetPriority)).Pairwise (fun p q => p ≥ q)
      ∧ (InputChannelEventNotifications.Compare ⟨none⟩ ⟨some 0⟩ = false
          ∧ InputChannelEventNotifications.Compare ⟨some 0⟩ ⟨none⟩ = false)) :=
  have hl : ([⟨some 5⟩, ⟨none⟩, ⟨none⟩, ⟨some (-3)⟩] :
      List InputChannelEventNotifications).Pairwise (fun x y => y.Compare x = false) := by
    decide
  ⟨⟨hl, rfl⟩,
    (compare_orders_by_priority ⟨none⟩ ⟨some 0⟩ _).2.1 hl,
    (compare_orders_by_priority ⟨none⟩ ⟨some 0⟩ []).2.2.2 rfl⟩

/-- C25: `Compare` is a strict weak ordering on handlers: no handler compares before
itself; if `a` compares before `b` then `b` does not compare before `a`; it is
transitive; and being unordered both ways (equal priority) is reflexive, symmetric and
transitive. -/
theorem compare_strict_weak_order (a b c : InputChannelEventNotifications) :
    a.Compare a = false
    ∧ (a.Compare b = true → b.Compare a = false)
    ∧ (a.Compare b = true → b.Compare c = true → a.Compare c = true)
    ∧ (a.Compare a = false ∧ a.Compare a = false)
    ∧ (a.Compare b = false ∧ b.Compare a = false →
        b.Compare a = false ∧ a.Compare b = false)
    ∧ (a.Compare b = false ∧ b.Compare a = false →
        b.Compare c = false ∧ c.Compare b = false →
        a.Compare c = false ∧ c.Compare a = false) := by
  simp only [InputChannelEventNotifications.Compare, decide_eq_true_eq,
    decide_eq_false_iff_not]
  refine ⟨by omega, by omega, by omega, by omega, ?_, ?_⟩
  · intro h; omega
  · intro h1 h2; omega

theorem compare_strict_weak_order_witness :
    (InputChannelEventNotifications.Compare ⟨some 5⟩ ⟨some 2⟩ = true
      ∧ InputChannelEventNotifications.Compare ⟨some 2⟩ ⟨none⟩ = true
      ∧ (InputChannelEventNotifications.Compare ⟨none⟩ ⟨some 0⟩ = false
          ∧ InputChannelEventNotifications.Compare ⟨some 0⟩ ⟨none⟩ = false))
    ∧ (InputChannelEventNotifications.Compare ⟨some 2⟩ ⟨some 5⟩ = false
      ∧ InputChannelEventNotifications.Compare ⟨some 5⟩ ⟨none⟩ = true
      ∧ (InputChannelEventNotifications.Compare ⟨some 0⟩ ⟨none⟩ = false
          ∧ InputChannelEventNotifications.Compare ⟨none⟩ ⟨some 0⟩ = false)) :=
  ⟨⟨by decide, by decide, by decide⟩,
    (compare_strict_weak_order ⟨some 5⟩ ⟨some 2⟩ ⟨none⟩).2.1 (by decide),
    (compare_strict_weak_order ⟨some 5⟩ ⟨some 2⟩ ⟨none⟩).2.2.1 (by decide) (by decide),
    (compare_strict_weak_order ⟨none⟩ ⟨some 0⟩ ⟨none⟩).2.2.2.2.1 (by decide)⟩

end AzFramework

namespace UnitTest

namespace ProcessLaunchParseTests

/-! ## Theorems: ParseParameters -/


theorem c_str_of_nulFree (s : AzString) (h : nulFree s = true) : c_str s = s := by
  unfold c_str
  rw [List.takeWhile_eq_self_iff]
  simpa [nulFree, List.all_eq_true] using h

/-- The process output of the tests, as a text and as the lines it is made of, and
what `ParseParameters` returns on it. -/
theorem parseParameters_scenario :
    dumpText ['\r', '\n'] ["Launch test".toList, "Args:".toList] sampleSwitches
        ["Done".toList] = sampleProcessOutput
    ∧ nonEmptyTokens (c_str sampleProcessOutput) ['\r', '\n']
        = ["Launch test".toList, "Args:".toList, switchListMarker, "param1".toList,
            " param".toList, " 1val".toList, "param2".toList, " param2v".toList,
            " al".toList, endSwitchListMarker, "Done".toList]
    ∧ ParseParameters nonEmptyTokens sampleProcessOutput = sampleSwitches := by
  decide

end ProcessLaunchParseTests

end UnitTest

namespace AZ

namespace SerializerInternal

open rapidjson JsonSerializationResult

/-! ## Theorems: integer serializer -/

theorem wrapInt64_of_range (n : Int) (h1 : -(2 : Int) ^ 63 ≤ n) (h2 : n < (2 : Int) ^ 63) :
    wrapInt64 n = n := by
  unfold wrapInt64
  rw [Int.emod_eq_of_lt (by omega) (by omega)]
  omega

theorem wrapUint64_of_range (n : Int) (h1 : 0 ≤ n) (h2 : n < (2 : Int) ^ 64) :
    wrapUint64 n = n := by
  unfold wrapUint64
  exact Int.emod_eq_of_lt h1 h2

theorem pow_le_of_bits (k : Nat) (hk : k ≤ 64) : (2 : Int) ^ k ≤ (2 : Int) ^ 64 :=
  pow_le_pow_right₀ (by norm_num) hk

theorem pow_pred_le_of_bits (k : Nat) (hk : k ≤ 64) (hpos : 0 < k) :
    (2 : Int) ^ (k - 1) ≤ (2 : Int) ^ 63 :=
  pow_le_pow_right₀ (by norm_num) (by omega)

/-- A value of an integral type of at most 64 bits lies in the union of the `int64_t`
and the `uint64_t` range. -/
theorem holds_range (T : IntType) (v : Int) (hbits : 0 < T.bits ∧ T.bits ≤ 64)
    (hv : T.holds v = true) : -(2 : Int) ^ 63 ≤ v ∧ v < (2 : Int) ^ 64 := by
  unfold IntType.holds at hv
  cases hs : T.isSigned with
  | true =>
    simp only [hs, if_true, decide_eq_true_eq] at hv
    have hp := pow_pred_le_of_bits T.bits hbits.2 hbits.1
    constructor <;> omega
  | false =>
    simp only [hs, Bool.false_eq_true, if_false, decide_eq_true_eq] at hv
    have hp := pow_le_of_bits T.bits hbits.2
    constructor <;> omega

/-- The JSON value that `StoreToValue` produces for a value `v` of `T` is the integer
number `v`. -/
theorem storeToValue_of_holds (T : IntType) (v : Int) (hbits : 0 < T.bits ∧ T.bits ≤ 64)
    (hv : T.holds v = true) : StoreToValue T v = Value.integer v := by
  unfold StoreToValue
  unfold IntType.holds at hv
  cases hs : T.isSigned with
  | true =>
    simp only [hs, if_true, decide_eq_true_eq] at hv
    have hp := pow_pred_le_of_bits T.bits hbits.2 hbits.1
    simp only [if_true, Value.SetInt64]
    rw [wrapInt64_of_range v (by omega) (by omega)]
  | false =>
    simp only [hs, Bool.false_eq_true, if_false, decide_eq_true_eq] at hv
    have hp := pow_le_of_bits T.bits hbits.2
    simp only [Bool.false_eq_true, if_false, Value.SetUint64]
    rw [wrapUint64_of_range v hv.1 (by omega)]

/-- C26: for an integral type `T` of at most 64 bits and a value `v` of `T`, `Store<T>`
with `m_keepDefaults` set, or without a default, reports Success and stores the
number `v`; `LoadInt<T>` on the stored JSON value then writes back exactly `v` and
reports Success. This covers negative values and unsigned 64-bit values above the
`int64_t` range. `JsonNumericCast<T>` is assumed to return an input that is a value
of `T` unchanged with Success. -/
theorem store_load_roundtrip (T : IntType)
    (JsonNumericCast : IntType → NumericInput → CastResult)
    (TextToValue : IntType → Int → String → Int × Result)
    (v out0 : Int) (old : Value) (defaultValue : Option Int) (m_keepDefaults : Bool)
    (hbits : 0 < T.bits ∧ T.bits ≤ 64) (hv : T.holds v = true)
    (hkeep : m_keepDefaults = true ∨ defaultValue = none)
    (hcastInt64 : ∀ x, T.holds x = true → -(2 : Int) ^ 63 ≤ x → x < (2 : Int) ^ 63 →
      (JsonNumericCast T (NumericInput.int64 x)).written = some x
        ∧ (JsonNumericCast T (NumericInput.int64 x)).result.outcome = Outcomes.Success)
    (hcastUint64 : ∀ x, T.holds x = true → 0 ≤ x → x < (2 : Int) ^ 64 →
      (JsonNumericCast T (NumericInput.uint64 x)).written = some x
        ∧ (JsonNumericCast T (NumericInput.uint64 x)).result.outcome = Outcomes.Success) :
    (Store T old v defaultValue m_keepDefaults).2.result.outcome = Outcomes.Success
    ∧ (Store T old v defaultValue m_keepDefaults).1 = Value.integer v
    ∧ (LoadInt T JsonNumericCast TextToValue out0
          (Store T old v defaultValue m_keepDefaults).1).outputValue = v
    ∧ (LoadInt T JsonNumericCast TextToValue out0
          (Store T old v defaultValue m_keepDefaults).1).result.result.outcome
        = Outcomes.Success := by
  have hstore : Store T old v defaultValue m_keepDefaults
      = (Value.integer v, ⟨Message.StoredInteger, ResultCode.Success Tasks.WriteValue⟩) := by
    unfold Store
    rcases hkeep with h | h
    · simp [h, storeToValue_of_holds T v hbits hv]
    · simp [h, storeToValue_of_holds T v hbits hv]
  have hrange := holds_range T v hbits hv
  rw [hstore]
  by_cases h64 : (Value.integer v).IsInt64 = true
  · have hr := h64
    simp only [Value.IsInt64, decide_eq_true_eq] at hr
    obtain ⟨hi1, hi2⟩ := hcastInt64 v hv hr.1 hr.2
    refine ⟨rfl, rfl, ?_, ?_⟩
    · simp [LoadInt, Value.GetType, h64, Value.GetInt64, hi1]
    · simp [LoadInt, Value.GetType, h64, Value.GetInt64, hi2]
  · have hr := h64
    simp only [Value.IsInt64, decide_eq_true_eq, not_and, not_lt] at hr
    obtain ⟨hu1, hu2⟩ := hcastUint64 v hv
      (le_trans (by positivity) (hr hrange.1)) hrange.2
    refine ⟨rfl, rfl, ?_, ?_⟩
    · simp [LoadInt, Value.GetType, h64, Value.IsDouble, Value.GetUint64, hu1]
    · simp [LoadInt, Value.GetType, h64, Value.IsDouble, Value.GetUint64, hu2]

/-- C27: for a JSON value of number type, `LoadInt` calls exactly one accessor, and
the accessor's precondition holds: `GetInt64` when the value `IsInt64`, otherwise
`GetDouble` when it `IsDouble`, otherwise `GetUint64`, and then the value is an integer
from `2^63` up to `2^64 - 1`. The returned result carries the result code of the
numeric cast, and its message is the "Successfully read" one exactly when the outcome
is Success and the "Failed to read" one otherwise. -/
theorem loadInt_number_reads (T : IntType)
    (JsonNumericCast : IntType → NumericInput → CastResult)
    (TextToValue : IntType → Int → String → Int × Result)
    (out0 : Int) (inputValue : Value)
    (hnum : inputValue.GetType = JsonType.kNumberType)
    (hwf : inputValue.WellFormed = true) :
    (inputValue.IsInt64 = true →
        (LoadInt T JsonNumericCast TextToValue out0 inputValue).reads = [Accessor.GetInt64]
        ∧ Accessor.GetInt64.precondition inputValue = true
        ∧ (LoadInt T JsonNumericCast TextToValue out0 inputValue).result.result
            = (JsonNumericCast T (NumericInput.int64 inputValue.GetInt64)).result)
    ∧ (inputValue.IsInt64 = false → inputValue.IsDouble = true →
        (LoadInt T JsonNumericCast TextToValue out0 inputValue).reads = [Accessor.GetDouble]
        ∧ Accessor.GetDouble.precondition inputValue = true
        ∧ (LoadInt T JsonNumericCast TextToValue out0 inputValue).result.result
            = (JsonNumericCast T (NumericInput.double inputValue.GetDouble)).result)
    ∧ (inputValue.IsInt64 = false → inputValue.IsDouble = false →
        (LoadInt T JsonNumericCast TextToValue out0 inputValue).reads = [Accessor.GetUint64]
        ∧ Accessor.GetUint64.precondition inputValue = true
        ∧ (∃ n, inputValue = Value.integer n ∧ (2 : Int) ^ 63 ≤ n ∧ n < (2 : Int) ^ 64)
        ∧ (LoadInt T JsonNumericCast TextToValue out0 inputValue).result.result
            = (JsonNumericCast T (NumericInput.uint64 inputValue.GetUint64)).result)
    ∧ ((LoadInt T JsonNumericCast TextToValue out0 inputValue).result.message
          = Message.ReadNumber
        ↔ (LoadInt T JsonNumericCast TextToValue out0 inputValue).result.result.outcome
          = Outcomes.Success)
    ∧ ((LoadInt T JsonNumericCast TextToValue out0 inputValue).result.result.outcome
          ≠ Outcomes.Success →
        (LoadInt T JsonNumericCast TextToValue out0 inputValue).result.message
          = Message.FailedToReadNumber) := by
  cases inputValue with
  | null => simp [Value.GetType] at hnum
  | bool b => cases b <;> simp [Value.GetType] at hnum
  | object => simp [Value.GetType] at hnum
  | array => simp [Value.GetType] at hnum
  | string s => simp [Value.GetType] at hnum
  | double d =>
    simp [LoadInt, Value.GetType, Value.IsInt64, Value.IsDouble, Value.GetDouble,
      Accessor.precondition, Value.IsNumber, ResultCode.GetOutcome]
  | integer n =>
    simp only [Value.WellFormed, decide_eq_true_eq] at hwf
    by_cases h64 : (Value.integer n).IsInt64 = true
    · simp [LoadInt, Value.GetType, h64, Value.GetInt64, Accessor.precondition,
        ResultCode.GetOutcome]
    · have hlarge : (2 : Int) ^ 63 ≤ n := by
        simp only [Value.IsInt64, decide_eq_true_eq, not_and, not_lt] at h64
        exact h64 hwf.1
      have hu : (Value.integer n).IsUint64 = true := by
        simp only [Value.IsUint64, decide_eq_true_eq]
        exact ⟨by omega, hwf.2⟩
      simp only [Bool.not_eq_true] at h64
      have hw2 := hwf.2
      simp [LoadInt, Value.GetType, h64, Value.IsDouble, Value.GetUint64,
        Accessor.precondition, hu, ResultCode.GetOutcome]
      constructor <;> omega

/-- C28: `Store<T>` writes `v` into the output JSON value and reports Success exactly
when `m_keepDefaults` is set, or no default is supplied, or `v` differs from the
default; otherwise, with a default equal to `v` and `m_keepDefaults` off, it leaves
the output JSON value as it was and reports the Default outcome. -/
theorem store_default_skipping (T : IntType) (old : Value) (v : Int)
    (defaultValue : Option Int) (m_keepDefaults : Bool) :
    ((Store T old v defaultValue m_keepDefaults).2.result.outcome = Outcomes.Success
      ↔ m_keepDefaults = true ∨ defaultValue = none ∨ ∃ d, defaultValue = some d ∧ v ≠ d)
    ∧ (m_keepDefaults = true ∨ defaultValue = none ∨ (∃ d, defaultValue = some d ∧ v ≠ d) →
        Store T old v defaultValue m_keepDefaults
          = (StoreToValue T v, ⟨Message.StoredInteger, ResultCode.Success Tasks.WriteValue⟩))
    ∧ (m_keepDefaults = false ∧ defaultValue = some v →
        Store T old v defaultValue m_keepDefaults
          = (old, ⟨Message.SkippedDefault, ResultCode.Default Tasks.WriteValue⟩)) := by
  cases m_keepDefaults <;> cases defaultValue with
  | none => simp [Store, ResultCode.Success]
  | some d =>
    by_cases hvd : v = d
    · simp [Store, ResultCode.Success, ResultCode.Default, hvd]
    · have hdv : ¬ d = v := fun e => hvd e.symm
      simp [Store, ResultCode.Success, ResultCode.Default, hvd, hdv]

theorem sampleNumericCast_int64 (T : IntType) (x : Int) (hx : T.holds x = true) :
    (sampleNumericCast T (NumericInput.int64 x)).written = some x
      ∧ (sampleNumericCast T (NumericInput.int64 x)).result.outcome = Outcomes.Success := by
  simp [sampleNumericCast, hx, ResultCode.Success]

theorem sampleNumericCast_uint64 (T : IntType) (x : Int) (hx : T.holds x = true) :
    (sampleNumericCast T (NumericInput.uint64 x)).written = some x
      ∧ (sampleNumericCast T (NumericInput.uint64 x)).result.outcome = Outcomes.Success := by
  simp [sampleNumericCast, hx, ResultCode.Success]

theorem store_load_roundtrip_witness :
    ((0 < sampleUnsignedLongLong.bits ∧ sampleUnsignedLongLong.bits ≤ 64)
      ∧ sampleUnsignedLongLong.holds 18446744073709551615 = true
      ∧ (0 < sampleInt.bits ∧ sampleInt.bits ≤ 64)
      ∧ sampleInt.holds (-5) = true)
    ∧ ((LoadInt sampleUnsignedLongLong sampleNumericCast sampleTextToValue 0
          (Store sampleUnsignedLongLong Value.null 18446744073709551615 none false).1).outputValue
        = 18446744073709551615
      ∧ (LoadInt sampleInt sampleNumericCast sampleTextToValue 0
          (Store sampleInt Value.null (-5) (some (-5)) true).1).outputValue = -5
      ∧ (LoadInt sampleInt sampleNumericCast sampleTextToValue 0
          (Store sampleInt Value.null (-5) (some (-5)) true).1).result.result.outcome
        = Outcomes.Success) :=
  have h1 : sampleUnsignedLongLong.holds 18446744073709551615 = true := by decide
  have h2 : sampleInt.holds (-5) = true := by decide
  have k1 := store_load_roundtrip sampleUnsignedLongLong sampleNumericCast sampleTextToValue
    18446744073709551615 0 Value.null none false ⟨by decide, by decide⟩ h1 (Or.inr rfl)
    (fun x hx _ _ => sampleNumericCast_int64 sampleUnsignedLongLong x hx)
    (fun x hx _ _ => sampleNumericCast_uint64 sampleUnsignedLongLong x hx)
  have k2 := store_load_roundtrip sampleInt sampleNumericCast sampleTextToValue
    (-5) 0 Value.null (some (-5)) true ⟨by decide, by decide⟩ h2 (Or.inl rfl)
    (fun x hx _ _ => sampleNumericCast_int64 sampleInt x hx)
    (fun x hx _ _ => sampleNumericCast_uint64 sampleInt x hx)
  ⟨⟨⟨by decide, by decide⟩, h1, ⟨by decide, by decide⟩, h2⟩, k1.2.2.1, k2.2.2.1, k2.2.2.2⟩

theorem loadInt_number_reads_witness :
    ((Value.integer 9223372036854775808).GetType = JsonType.kNumberType
      ∧ (Value.integer 9223372036854775808).WellFormed = true
      ∧ (Value.integer 9223372036854775808).IsInt64 = false
      ∧ (Value.integer 9223372036854775808).IsDouble = false)
    ∧ ((LoadInt sampleUnsignedLongLong sampleNumericCast sampleTextToValue 0
          (Value.integer 9223372036854775808)).reads = [Accessor.GetUint64]
      ∧ Accessor.GetUint64.precondition (Value.integer 9223372036854775808) = true
      ∧ (∃ n, Value.integer 9223372036854775808 = Value.integer n
          ∧ (2 : Int) ^ 63 ≤ n ∧ n < (2 : Int) ^ 64)
      ∧ (LoadInt sampleUnsignedLongLong sampleNumericCast sampleTextToValue 0
          (Value.integer 9223372036854775808)).result.result
        = (sampleNumericCast sampleUnsignedLongLong
            (NumericInput.uint64 (Value.integer 9223372036854775808).GetUint64)).result) :=
  ⟨⟨rfl, by decide, by decide, rfl⟩,
    (loadInt_number_reads sampleUnsignedLongLong sampleNumericCast sampleTextToValue 0
      (Value.integer 9223372036854775808) rfl (by decide)).2.2.1 (by decide) rfl⟩

theorem store_default_skipping_witness :
    ((false = false ∧ (some 7 : Option Int) = some 7)
      ∧ Store sampleInt (Value.string "old") 7 (some 7) false
        = (Value.string "old", ⟨Message.SkippedDefault, ResultCode.Default Tasks.WriteValue⟩))
    ∧ ((false = true ∨ (some 8 : Option Int) = none ∨ ∃ d, (some 8 : Option Int) = some d ∧ (7 : Int) ≠ d)
      ∧ Store sampleInt (Value.string "old") 7 (some 8) false
        = (StoreToValue sampleInt 7,
            ⟨Message.StoredInteger, ResultCode.Success Tasks.WriteValue⟩)) :=
  have h2 : false = true ∨ (some 8 : Option Int) = none
      ∨ ∃ d, (some 8 : Option Int) = some d ∧ (7 : Int) ≠ d :=
    Or.inr (Or.inr ⟨8, rfl, by decide⟩)
  ⟨⟨⟨rfl, rfl⟩, (store_default_skipping sampleInt (Value.string "old") 7 (some 7) false).2.2
      ⟨rfl, rfl⟩⟩,
    ⟨h2, (store_default_skipping sampleInt (Value.string "old") 7 (some 8) false).2.1 h2⟩⟩

/-- The values of the round trip on concrete inputs: the largest `unsigned long long`
is stored as a number that is not `IsInt64` and is read back through `GetUint64`; a
negative `int` is stored through `SetInt64` and read back through `GetInt64`. -/
theorem store_load_scenario :
    (Store sampleUnsignedLongLong Value.null 18446744073709551615 none false).1
        = Value.integer 18446744073709551615
    ∧ (LoadInt sampleUnsignedLongLong sampleNumericCast sampleTextToValue 0
        (Value.integer 18446744073709551615)).reads = [Accessor.GetUint64]
    ∧ (Store sampleInt Value.null (-5) none false).1 = Value.integer (-5)
    ∧ (LoadInt sampleInt sampleNumericCast sampleTextToValue 0 (Value.integer (-5)))
        = { outputValue := -5,
            result := ⟨Message.ReadNumber, ResultCode.Success Tasks.ReadField⟩,
            reads := [Accessor.GetInt64] } := by
  decide

end SerializerInternal

end AZ
